import Mathlib

/-!
# Verification of the protection-utilities guard module

A shallow embedding, in Lean 4, of `src/protectionutilities.js` from the
PolygonDexArbitrage repository, together with theorems settling the frozen
claims about that module.

Modelling conventions:

* JavaScript `BigInt` values are modelled as `ℤ`; `BigInt` division is
  truncation toward zero (`Int.tdiv`), matching BigInt semantics.
* JavaScript `Number` values are modelled by `JSNum`: a finite rational,
  `NaN`, `+Infinity` or `-Infinity`.  Where a claim is specifically about
  IEEE-754 binary64 rounding behaviour (the profit-lock splitter), the
  rounding of an exact rational to the nearest representable double is
  modelled explicitly by `fl` (round to nearest, ties to even, 53-bit
  significand, normal range — sub-normal underflow and overflow to an
  infinity are outside every value this development evaluates).
  Elsewhere finite doubles are idealised as exact rationals.
* Values whose conversion by the `BigInt()` constructor may throw are
  modelled by `JsCast`; a failed conversion, like a mixed
  `Number`/`BigInt` arithmetic operand pair, raises a `JsErr` which
  propagates through `Except` exactly where the source has no
  `try`/`catch`.
* Every remote read (`readCall` over an RPC provider, the file system,
  oracle feeds) is an input to the model, supplied in an `Env` record;
  a read whose two attempts both fail is a `none` field, matching the
  `.catch(() => null)` / `.catch(() => false)` / `.catch(() => 0n)`
  folds at the corresponding call site in the source.  The remote calls
  a run issues are reported as an explicit effect list.
* Environment-derived configuration (the `process.env` constants read at
  module load) is an explicit `Cfg` record; integer-valued settings are
  modelled as `ℤ`, USD thresholds as `ℚ`.
-/

set_option allowUnsafeReducibility true
set_option maxRecDepth 8000

attribute [local semireducible] Rat.mul Rat.add Rat.sub Rat.div Rat.inv

namespace Protection

/-- Decidable equality for `Except` results, used to evaluate the model
on concrete inputs. -/
instance {ε α : Type} [DecidableEq ε] [DecidableEq α] : DecidableEq (Except ε α) := fun x y =>
  match x, y with
  | .error a, .error b =>
    if h : a = b then isTrue (congrArg Except.error h)
    else isFalse (fun hh => h (Except.error.inj hh))
  | .error _, .ok _ => isFalse (fun hh => Except.noConfusion hh)
  | .ok _, .error _ => isFalse (fun hh => Except.noConfusion hh)
  | .ok a, .ok b =>
    if h : a = b then isTrue (congrArg Except.ok h)
    else isFalse (fun hh => h (Except.ok.inj hh))

/-- Errors a JavaScript expression in this module can throw: mixing
`Number` and `BigInt` operands in arithmetic (`TypeError`), or a failed
`BigInt()` conversion (`TypeError`/`SyntaxError`/`RangeError`, collapsed). -/
inductive JsErr where
  | typeError
  | conversionError
deriving DecidableEq, Repr

/-- A value handed to the `BigInt()` constructor: already a bigint, a
value convertible to the given integer, or a value whose conversion
throws. -/
inductive JsCast where
  | big (i : ℤ)
  | castable (i : ℤ)
  | uncastable
deriving DecidableEq, Repr

/-- `BigInt(v)` as a partial function: `none` models a throw. -/
def jsBigInt : JsCast → Option ℤ
  | .big i => some i
  | .castable i => some i
  | .uncastable => none

/-- A JavaScript `Number`: finite (idealised as an exact rational),
`NaN`, or an infinity. -/
inductive JSNum where
  | fin (q : ℚ)
  | nan
  | inf
  | ninf
deriving DecidableEq, Repr

/-- Truthiness of a `Number`: `0` and `NaN` are falsy. -/
def JSNum.truthy : JSNum → Bool
  | .fin q => q != 0
  | .nan => false
  | .inf => true
  | .ninf => true

/-- `Number.isFinite`. -/
def JSNum.isFinite : JSNum → Bool
  | .fin _ => true
  | _ => false

/-- `x || 0`. -/
def JSNum.orZero (x : JSNum) : JSNum :=
  if x.truthy then x else .fin 0

/-- The rational value of a finite `Number` (`0` for the others; only
used beneath an `isFinite` guard). -/
def JSNum.val : JSNum → ℚ
  | .fin q => q
  | _ => 0

/-- An operand of the slippage guard: either a `BigInt` or a (finite)
`Number`.  The source compares them against `0n` and each other (legal
for mixed operands) but subtracts and multiplies them (which throws a
`TypeError` on a mixed or `Number`/`BigInt`-literal pair). -/
inductive JsArith where
  | big (i : ℤ)
  | num (q : ℚ)
deriving DecidableEq, Repr

/-- Numeric value used by the (mixed-type-legal) comparison operators. -/
def JsArith.toQ : JsArith → ℚ
  | .big i => (i : ℚ)
  | .num q => q

/-- JavaScript subtraction on these operands: defined only when both are
bigints or both are numbers. -/
def JsArith.sub : JsArith → JsArith → Except JsErr JsArith
  | .big a, .big b => .ok (.big (a - b))
  | .num a, .num b => .ok (.num (a - b))
  | _, _ => .error .typeError

/-- Multiplication by the literal `10000n`: throws unless the left
operand is a bigint. -/
def JsArith.mulBig10000 : JsArith → Except JsErr ℤ
  | .big a => .ok (a * 10000)
  | .num _ => .error .typeError

/-! ## IEEE-754 binary64 rounding (for the profit-lock splitter) -/

/-- Floor of the base-2 logarithm of a positive natural (fuel-based so
that it reduces inside kernel evaluation). -/
def nlog2Aux : ℕ → ℕ → ℕ
  | 0, _ => 0
  | fuel + 1, n => if 2 ≤ n then nlog2Aux fuel (n / 2) + 1 else 0

/-- `⌊log₂ n⌋` for `n ≥ 1` (and `0` at `0`). -/
def nlog2 (n : ℕ) : ℕ := nlog2Aux n n

/-- Round a rational to the nearest integer, ties to even. -/
def rne (q : ℚ) : ℤ :=
  let n := ⌊q⌋
  let f := q - (n : ℚ)
  if f < 1/2 then n
  else if 1/2 < f then n + 1
  else if n % 2 = 0 then n else n + 1

/-- Round a positive rational to the nearest binary64 value (ties to
even), assuming the result lies in the normal range. -/
def flPos (q : ℚ) : ℚ :=
  let a : ℤ := nlog2 q.num.natAbs
  let b : ℤ := nlog2 q.den
  let s : ℤ := 52 - (a - b)
  let scaled := q * (2 : ℚ) ^ s
  if scaled < 2 ^ 52 then (rne (q * (2 : ℚ) ^ (s + 1)) : ℚ) / (2 : ℚ) ^ (s + 1)
  else (rne scaled : ℚ) / (2 : ℚ) ^ s

/-- The binary64 double nearest to an exact rational (normal range). -/
def fl (q : ℚ) : ℚ :=
  if q = 0 then 0
  else if q < 0 then -flPos (-q)
  else flPos q

/-- `Math.round`: nearest integer, ties toward `+∞` (exact on the
argument's value, per the ECMAScript specification). -/
def jsRound (q : ℚ) : ℤ := ⌊q + 1/2⌋

/-! ## Configuration (module-level `process.env` reads) -/

/-- The environment-derived constants the module reads once at load. -/
structure Cfg where
  profitThresholdBps : ℚ := 100
  profitThresholdUsd : ℚ := 0
  cooldownMs : ℤ := 3000
  maxSlippageBps : ℤ := 100
  highGasWei : ℤ := 300000000000
  gasLimitMax : ℤ := 2000000
  mevLookbackMs : ℤ := 10000
  aaveLoan : Bool := false
  balLoan : Bool := false
  flashFallbackTokens : List String := []
deriving Repr

/-- `ethers.ZeroAddress`. -/
def zeroAddress : String := "0x0000000000000000000000000000000000000000"

/-! ## Guard verdict records -/

/-- Result of `validateSlippage`. -/
structure SlipVerdict where
  ok : Bool
  slippageBps : ℤ
  maxSlippageBps : ℤ
  reason : Option String := none
deriving DecidableEq, Repr

/-- Result of `lockProfit` (decimal dollars; exact rational values of
the returned doubles). -/
structure LockResult where
  locked : ℚ
  leftover : ℚ
deriving DecidableEq, Repr

/-! ## Slippage guard -/

/-- `validateSlippage(expectedOut, minOut)`.  The comparisons against
`0n` and between the operands are legal for any operand kinds; the
subtraction and the multiplication by `10000n` throw a `TypeError`
unless both operands are bigints, which the source does not catch. -/
def validateSlippage (cfg : Cfg) (expectedOut minOut : JsArith) :
    Except JsErr SlipVerdict :=
  if expectedOut.toQ ≤ 0 then
    .ok ⟨false, 10000, cfg.maxSlippageBps, some "expectedOut<=0"⟩
  else if minOut.toQ > expectedOut.toQ then
    .ok ⟨false, 10000, cfg.maxSlippageBps, some "minOut>expectedOut"⟩
  else do
    let diff ← expectedOut.sub minOut
    let prod ← diff.mulBig10000
    let eo ← match expectedOut with
      | .big i => Except.ok i
      | .num _ => Except.error JsErr.typeError
    let slippageBps := Int.tdiv prod eo
    .ok ⟨decide (slippageBps ≤ cfg.maxSlippageBps), slippageBps, cfg.maxSlippageBps, none⟩

/-! ## Profit-lock splitter -/

/-- `lockProfit(profitUsd, lockPct = 0.75)`, with every floating-point
operation modelled by correct rounding (`fl`) of the exact result.
Integer intermediates (`cents`, `locked` cents) are assumed exactly
representable (|·| < 2^53), which holds for every value evaluated here. -/
def lockProfit (profitUsd : JSNum) (lockPct : ℚ) : LockResult :=
  match profitUsd with
  | .fin q =>
    if q ≤ 0 then ⟨0, 0⟩
    else
      let cents : ℤ := jsRound (fl (q * 100))
      let locked : ℤ := jsRound (fl ((cents : ℚ) * lockPct))
      ⟨fl ((locked : ℚ) / 100), fl (((cents - locked : ℤ) : ℚ) / 100)⟩
  | _ => ⟨0, 0⟩

/-! ## Effects

Every remote or file-system access a guard performs is reported as an
explicit effect, so that claims about which calls a run issues ("no
gas-estimation call", "write-back only when entries were pruned") are
statable. -/

/-- One remote/file-system access. -/
inductive Eff where
  | fsRead
  | fsWrite (kept : List (Option ℤ))
  | feeData
  | estimateGas
  | getBalance (wallet : String)
  | balanceOf (token holder : String)
  | chainlink
  | v2Reserves (pair : String)
  | v3State (pool : String)
deriving DecidableEq, Repr

/-- Truthiness of a possibly-absent string (only the empty string is a
falsy string; `none` models `undefined`/`null`). -/
def jsTruthyStr : Option String → Bool
  | some s => s != ""
  | none => false

/-! ## Profit threshold guard (direct USD) -/

/-- Result of either profit-threshold guard. -/
structure ProfitVerdict where
  ok : Bool
  reason : Option String := none
  profitUsd : Option ℚ := none
  notionalUsd : Option ℚ := none
  profitBps : Option ℤ := none
  thresholdBps : Option ℚ := none
  thresholdUsd : Option ℚ := none
deriving DecidableEq, Repr

/-- `meetsProfitThresholdUSD(profitUsd, notionalUsd)`.  Note the `|| 0`
coercion applied to each input before the finiteness test: `NaN` is
falsy, so a `NaN` input is replaced by `0` and is never rejected as
`invalidInputs`. -/
def meetsProfitThresholdUSD (cfg : Cfg) (profitUsd notionalUsd : JSNum) : ProfitVerdict :=
  let notional := notionalUsd.orZero
  let profit := profitUsd.orZero
  if !profit.isFinite || !notional.isFinite then
    { ok := false, reason := some "invalidInputs" }
  else
    let p := profit.val
    let n := notional.val
    let passUsd := decide (p ≥ cfg.profitThresholdUsd)
    let profitBps : ℤ := if n > 0 then ⌊p / n * 10000⌋ else 0
    let passBps := decide ((profitBps : ℚ) ≥ cfg.profitThresholdBps)
    { ok := passUsd && passBps, profitUsd := some p, notionalUsd := some n,
      profitBps := some profitBps, thresholdBps := some cfg.profitThresholdBps,
      thresholdUsd := some cfg.profitThresholdUsd }

/-! ## Oracle-derived profit guard -/

/-- `fetchPrice` inside `meetsProfitThresholdUSD_Chainlink`: feed-map
lookup followed by the oracle read.  The `price` oracle gives the final
resolved unit price per feed address, with the decimals/answer validity
and staleness checks (and the `.catch(() => null)` fold) already
applied — a discarded or failed feed is `none`. -/
def fetchPrice (price : String → Option ℚ) (feedMap : String → Option String)
    (token : Option String) : Option ℚ :=
  match token with
  | some t => (feedMap t).bind price
  | none => none

/-- `fetchTokenDecimals`: the native asset (absent or zero address)
defaults to 18; otherwise the `decimals()` read, whose own failure and
non-finite folds to 18, is the `dec` oracle's value. -/
def fetchTokenDecimals (dec : String → ℕ) (token : Option String) : ℕ :=
  match token with
  | none => 18
  | some t => if t = "" ∨ t = zeroAddress then 18 else dec t

/-- `meetsProfitThresholdUSD_Chainlink`: resolves both prices and both
decimals (concurrently in the source), aborts with `missingOrStaleFeed`
if either price is missing, otherwise converts the raw amounts to USD
and delegates to the direct-USD guard. -/
def meetsProfitThresholdUSD_Chainlink (cfg : Cfg)
    (price : String → Option ℚ) (dec : String → ℕ)
    (profitToken : Option String) (profitAmountWei : Option ℤ)
    (notionalToken : Option String) (notionalAmountWei : Option ℤ)
    (feedMap : String → Option String) : ProfitVerdict × List Eff :=
  match fetchPrice price feedMap profitToken, fetchPrice price feedMap notionalToken with
  | some pp, some np =>
    let pd := fetchTokenDecimals dec profitToken
    let nd := fetchTokenDecimals dec notionalToken
    let profitUsd := ((profitAmountWei.getD 0 : ℤ) : ℚ) / (10 : ℚ) ^ pd * pp
    let notionalUsd := ((notionalAmountWei.getD 0 : ℤ) : ℚ) / (10 : ℚ) ^ nd * np
    (meetsProfitThresholdUSD cfg (.fin profitUsd) (.fin notionalUsd), [.chainlink])
  | _, _ => ({ ok := false, reason := some "missingOrStaleFeed" }, [.chainlink])

/-! ## Cooldown guard -/

/-- Result of `enforceCooldown`. -/
structure CooldownVerdict where
  ok : Bool
  msRemaining : Option ℤ := none
deriving DecidableEq, Repr

/-- The module-level `lastActionAt` map: last-approved timestamp per
route key.  `lastActionAt.get(key) || 0` is folded into a total map
defaulting to `0`. -/
def CooldownMap : Type := String → ℤ

/-- `enforceCooldown(key)`: check-then-set against the in-memory map;
a failing check returns the remaining wait and leaves the map untouched. -/
def enforceCooldown (cfg : Cfg) (now : ℤ) (m : CooldownMap) (key : String) :
    CooldownVerdict × CooldownMap :=
  let last := m key
  if now - last < cfg.cooldownMs then
    ({ ok := false, msRemaining := some (cfg.cooldownMs - (now - last)) }, m)
  else
    ({ ok := true }, fun k => if k = key then now else m k)

/-! ## MEV risk guard -/

/-- Outcome of reading and parsing the MEV queue file.  An entry is its
`timestamp` payload (`none` when the record has no timestamp, which
`e?.timestamp ?? 0` turns into `0`). -/
inductive MevRead where
  | absent
  | readError
  | notArray
  | arr (q : List (Option ℤ))
deriving DecidableEq, Repr

/-- Result of `isMEVRisk`. -/
structure MevResult where
  risk : Bool
deriving DecidableEq, Repr

/-- An MEV entry counts as recent when `now - timestamp < lookback`. -/
def mevRecent (cfg : Cfg) (now : ℤ) (e : Option ℤ) : Bool :=
  decide (now - e.getD 0 < cfg.mevLookbackMs)

/-- `isMEVRisk()`: absent/non-array content is no risk, a thrown
read/parse error is risk, otherwise risk iff some entry is recent.
Pruned entries trigger a best-effort write-back whose success
(`writeOk`) is swallowed by the surrounding `try`/`catch` and never
reaches the result. -/
def isMEVRisk (cfg : Cfg) (now : ℤ) (file : MevRead) (_writeOk : Bool) :
    MevResult × List Eff :=
  match file with
  | .absent => (⟨false⟩, [.fsRead])
  | .readError => (⟨true⟩, [.fsRead])
  | .notArray => (⟨false⟩, [.fsRead])
  | .arr q =>
    let keep := q.filter (mevRecent cfg now)
    let recent := q.any (mevRecent cfg now)
    if keep.length ≠ q.length then (⟨recent⟩, [.fsRead, .fsWrite keep])
    else (⟨recent⟩, [.fsRead])

/-! ## Gas guard -/

/-- The merged fee data `assessGas` works from (caller overrides
already applied over the provider's fee data; `none` = the whole fetch
failed and the `.catch(() => null)` fold fired). -/
structure FeeData where
  gasPrice : Option JsCast := none
  maxFeePerGas : Option JsCast := none
  maxPriorityFeePerGas : Option JsCast := none
deriving DecidableEq, Repr

/-- Result of `assessGas`. -/
structure GasVerdict where
  ok : Bool
  reason : Option String := none
  gasLimit : Option ℤ := none
  maxFeePerGas : Option JsCast := none
  maxPriorityFeePerGas : Option JsCast := none
  gasPrice : Option JsCast := none
deriving DecidableEq, Repr

/-- The fee-ceiling check of `assessGas`: `some v` is an early failure
return, `none` means the fee is acceptable.  The source's 1559 branch
casts `maxFeePerGas`, the legacy branch casts `gasPrice`; a throwing
cast is caught and folded into the matching `*CastError` reason. -/
def assessGasFeeCheck (cfg : Cfg) (fd : FeeData) (using1559 : Bool) : Option GasVerdict :=
  if using1559 then
    match fd.maxFeePerGas with
    | some v =>
      match jsBigInt v with
      | some m =>
        if m > cfg.highGasWei then
          some { ok := false, reason := some "maxFeePerGasTooHigh", maxFeePerGas := some (.big m) }
        else none
      | none => some { ok := false, reason := some "maxFeePerGasCastError" }
    | none => none
  else
    match fd.gasPrice with
    | some v =>
      match jsBigInt v with
      | some g =>
        if g > cfg.highGasWei then
          some { ok := false, reason := some "gasPriceTooHigh", gasPrice := some (.big g) }
        else none
      | none => some { ok := false, reason := some "gasPriceCastError" }
    | none => none

/-- `assessGas(txRequest)`: fee-model selection, fee ceiling, then (only
if the fee is acceptable) the gas estimation, whose failure fold is
`0n`. -/
def assessGas (cfg : Cfg) (fee : Option FeeData) (gasEstimate : ℤ) :
    GasVerdict × List Eff :=
  match fee with
  | none => ({ ok := false, reason := some "feeDataNull" }, [.feeData])
  | some fd =>
    let using1559 := fd.maxFeePerGas.isSome && fd.maxPriorityFeePerGas.isSome
    if !using1559 && fd.gasPrice.isNone then
      ({ ok := false, reason := some "noGasPriceAndNo1559" }, [.feeData])
    else
      match assessGasFeeCheck cfg fd using1559 with
      | some v => (v, [.feeData])
      | none =>
        if gasEstimate = 0 then
          ({ ok := false, reason := some "gasEstimationFailed" }, [.feeData, .estimateGas])
        else if gasEstimate > cfg.gasLimitMax then
          ({ ok := false, reason := some "gasLimitTooHigh", gasLimit := some gasEstimate },
           [.feeData, .estimateGas])
        else
          ({ ok := true, gasLimit := some gasEstimate,
             maxFeePerGas := if using1559 then fd.maxFeePerGas else none,
             maxPriorityFeePerGas := if using1559 then fd.maxPriorityFeePerGas else none,
             gasPrice := if using1559 then none else fd.gasPrice },
           [.feeData, .estimateGas])

/-! ## Wallet balance guard -/

/-- Result of `hasWalletBalance`. -/
structure WalletVerdict where
  ok : Bool
  balance : ℤ
deriving DecidableEq, Repr

/-- `hasWalletBalance(wallet, token, needed)`: the uncaught
`BigInt(needed)` conversion throws out of the guard; a falsy or
zero-address token queries the native balance, any other token the
ERC-20 balance; a failed read folds to `null`, hence a `0` balance and
a failing verdict. -/
def hasWalletBalance (nativeBal : Option ℤ) (ercBal : String → String → Option ℤ)
    (wallet : String) (token : Option String) (needed : JsCast) :
    Except JsErr (WalletVerdict × List Eff) :=
  match jsBigInt needed with
  | none => .error .conversionError
  | some minRequiredWei =>
    let native (bal : Option ℤ) : WalletVerdict :=
      ⟨(match bal with | some b => decide (b ≥ minRequiredWei) | none => false), bal.getD 0⟩
    match token with
    | none => .ok (native nativeBal, [.getBalance wallet])
    | some t =>
      if t = "" ∨ t = zeroAddress then .ok (native nativeBal, [.getBalance wallet])
      else .ok (native (ercBal t wallet), [.balanceOf t wallet])

/-! ## Flash-loan availability guard -/

/-- One flash-loan liquidity candidate. -/
structure FlashCand where
  ctype : String
  token : String
  addr : String
  needed : JsCast
deriving DecidableEq, Repr

/-- Result of `isFlashLoanAvailable`. -/
structure FlashVerdict where
  ok : Bool
  reason : Option String := none
  aave : Option Bool := none
  balancer : Option Bool := none
deriving DecidableEq, Repr

/-- `checkBalance` inside `isFlashLoanAvailable`: every failure (read
error or throwing `BigInt(needed)`) folds to `false`. -/
def flashCheckBalance (bal : String → String → Option ℤ) (c : FlashCand) : Bool :=
  match bal c.token c.addr, jsBigInt c.needed with
  | some b, some n => decide (b ≥ n)
  | _, _ => false

/-- The per-source candidate loop: checks candidates in order, stopping
at the first qualifying one. -/
def flashScan (bal : String → String → Option ℤ) : List FlashCand → Bool × List Eff
  | [] => (false, [])
  | c :: rest =>
    if flashCheckBalance bal c then (true, [.balanceOf c.token c.addr])
    else
      let (r, es) := flashScan bal rest
      (r, .balanceOf c.token c.addr :: es)

/-- `isFlashLoanAvailable(candidates)`. -/
def isFlashLoanAvailable (cfg : Cfg) (bal : String → String → Option ℤ)
    (candidates : List FlashCand) : FlashVerdict × List Eff :=
  if !cfg.aaveLoan && !cfg.balLoan then
    ({ ok := false, reason := some "loansDisabledInEnv" }, [])
  else
    let aaveRes := if cfg.aaveLoan then flashScan bal (candidates.filter (·.ctype == "aave"))
                   else (false, [])
    let balRes := if cfg.balLoan then flashScan bal (candidates.filter (·.ctype == "balancer"))
                  else (false, [])
    let effs := aaveRes.2 ++ balRes.2
    if aaveRes.1 || balRes.1 then
      ({ ok := true, aave := some aaveRes.1, balancer := some balRes.1 }, effs)
    else
      ({ ok := false, reason := some "noLiquidity",
         aave := some aaveRes.1, balancer := some balRes.1 }, effs)

/-! ## Fallback-token selection -/

/-- Result of `chooseFallbackToken`. -/
structure FallbackVerdict where
  ok : Bool
  token : Option String := none
  balance : Option ℤ := none
deriving DecidableEq, Repr

/-- `chooseFallbackToken(wallet, tokens, minAmt = 0n)`: first token
whose balance read succeeds, is truthy (nonzero) and exceeds `minAmt`. -/
def chooseFallbackToken (bal : String → String → Option ℤ) (wallet : String)
    (minAmt : ℤ) : List String → FallbackVerdict × List Eff
  | [] => ({ ok := false }, [])
  | t :: rest =>
    let hit := match bal t wallet with
      | some r => r != 0 && decide (r > minAmt)
      | none => false
    if hit then
      ({ ok := true, token := some t, balance := bal t wallet }, [.balanceOf t wallet])
    else
      let (v, es) := chooseFallbackToken bal wallet minAmt rest
      (v, .balanceOf t wallet :: es)

/-- `_resolveFlashFallbackTokens(runtimeList)`. -/
def resolveFlashFallbackTokens (cfg : Cfg) (runtimeList : List String) : List String :=
  (if runtimeList.length ≠ 0 then runtimeList else cfg.flashFallbackTokens).take 5

/-! ## Pool-state readers -/

/-- Snapshot returned by `getV2Reserves`. -/
structure V2State where
  token0 : String
  token1 : String
  r0 : ℤ
  r1 : ℤ
  tsLast : ℤ
  ts : ℤ
deriving DecidableEq, Repr

/-- Snapshot returned by `getV3State`. -/
structure V3State where
  token0 : String
  token1 : String
  sqrtPriceX96 : ℤ
  liquidity : ℤ
  ts : ℤ
deriving DecidableEq, Repr

/-- `getV2Reserves(pair)`: the whole fetch is one resilient read whose
failure folds to `null`. -/
def getV2Reserves (v2 : String → Option V2State) (pair : String) :
    Option V2State × List Eff :=
  (v2 pair, [.v2Reserves pair])

/-- `getV3State(pool)`: likewise. -/
def getV3State (v3 : String → Option V3State) (pool : String) :
    Option V3State × List Eff :=
  (v3 pool, [.v3State pool])

/-! ## Reserve-cap calculator -/

/-- The `info` payload of `reserveTradeCheck`. -/
inductive RtcInfo where
  | v2 (token0 token1 : String) (r0 r1 : ℤ)
  | v3 (token0 token1 : String) (liquidity sqrtPriceX96 : ℤ)
deriving DecidableEq, Repr

/-- Result of `reserveTradeCheck`. -/
structure RtcResult where
  safeAmount : ℤ
  info : Option RtcInfo
deriving DecidableEq, Repr

/-- Outcomes of the direct (caller-provided-provider) pool fetches in
`reserveTradeCheck`; a `.error` is any throw inside the `try`, caught by
the surrounding handler.  The V2 payload is `(token0, token1, reserve0,
reserve1)`, the V3 payload `(sqrtPriceX96, liquidity, token0, token1)`. -/
structure RtcFetch where
  v2 : Except Unit (String × String × ℤ × ℤ)
  v3 : Except Unit (ℤ × ℤ × String × String)
deriving DecidableEq, Repr

/-- `String.toLowerCase()`. -/
def jsToLower (s : String) : String := s.map Char.toLower

/-- `reserveTradeCheck({...})` for a (finite, non-`NaN`) numeric
`slippagePercent`: clamps `floor(slippagePercent || 1)` to `[0, 99]`,
caps the desired amount by `baseQuantity * (100 - sp) / 100` in BigInt
arithmetic, and converts every error (including an unknown pool type)
into `{safeAmount: 0n, info: null}`. -/
def reserveTradeCheck (fetch : RtcFetch) (poolType : String) (tokenIn : String)
    (desiredAmount : JsCast) (slippagePercent : ℚ) : RtcResult :=
  let sp : ℤ := max 0 (min 99 ⌊(if slippagePercent = 0 then 1 else slippagePercent)⌋)
  if poolType = "V2" then
    match fetch.v2, jsBigInt desiredAmount with
    | .ok (t0, t1, res0, res1), some want =>
      let reserveIn := if jsToLower t0 = jsToLower tokenIn then res0 else res1
      let cap := Int.tdiv (reserveIn * (100 - sp)) 100
      ⟨if want < cap then want else cap, some (.v2 t0 t1 res0 res1)⟩
    | _, _ => ⟨0, none⟩
  else if poolType = "V3" then
    match fetch.v3, jsBigInt desiredAmount with
    | .ok (sqrtP, liq, t0, t1), some want =>
      let cap := Int.tdiv (liq * (100 - sp)) 100
      ⟨if want < cap then want else cap, some (.v3 t0 t1 liq sqrtP)⟩
    | _, _ => ⟨0, none⟩
  else ⟨0, none⟩

/-! ## The composed guard pipeline -/

/-- All remote/file data one `runProtections` run can observe.  Each
field is the folded outcome of the corresponding resilient read at its
call site. -/
structure Env where
  nowCooldown : ℤ
  nowMev : ℤ
  stepMs : ℕ → ℤ
  mevFile : MevRead
  mevWriteOk : Bool
  feeResult : Option FeeData
  gasEstimate : ℤ
  nativeBalance : Option ℤ
  ercBalanceOf : String → String → Option ℤ
  fallbackBalanceOf : String → String → Option ℤ
  chainlinkPrice : String → Option ℚ
  tokenDecimals : String → ℕ
  v2 : String → Option V2State
  v3 : String → Option V3State

/-- The `neededBalance` parameter. -/
structure NeededBalance where
  token : Option String := none
  amountWei : JsCast := .uncastable
deriving DecidableEq, Repr

/-- The parameter object of `runProtections` (the fee-override fields of
`txRequest` are folded into `Env.feeResult`, which models the merged fee
data). -/
structure Params where
  routeKey : String := ""
  expectedOut : JsArith := .big 0
  minOut : JsArith := .big 0
  profitUsd : Option JSNum := none
  notionalUsd : Option JSNum := none
  profitToken : Option String := none
  profitAmountWei : Option ℤ := none
  notionalToken : Option String := none
  notionalAmountWei : Option ℤ := none
  feedMap : String → Option String := fun _ => none
  wallet : String := ""
  v2PairAddr : Option String := none
  v3PoolAddr : Option String := none
  fallbackTokens : List String := []
  neededBalance : Option NeededBalance := none
  flashCandidates : List FlashCand := []

/-- One trace entry `{name, ms}`. -/
structure TraceEntry where
  name : String
  ms : ℤ
deriving DecidableEq, Repr

/-- The `details` payload of the final verdict: one per abort site, or
the success record `{slip, pt, gas, reserves, fallback, lock}`. -/
inductive Details where
  | cooldown (d : CooldownVerdict)
  | mev (d : MevResult)
  | slippage (d : SlipVerdict)
  | profit (d : ProfitVerdict)
  | gas (d : GasVerdict)
  | wallet (d : WalletVerdict)
  | flash (d : FlashVerdict)
  | success (slip : SlipVerdict) (pt : ProfitVerdict) (gas : GasVerdict)
      (reserves : Option (V2State ⊕ V3State)) (fallback : Option FallbackVerdict)
      (lock : LockResult)
deriving DecidableEq, Repr

/-- The pipeline's verdict. -/
structure Verdict where
  ok : Bool
  reason : Option String
  details : Details
  trace : List TraceEntry
deriving DecidableEq, Repr

/-- `step(name)`: append a trace entry timestamped relative to run
start; the clock reading for the n-th step is `env.stepMs n`. -/
def stepPush (env : Env) (tr : List TraceEntry) (name : String) : List TraceEntry :=
  tr ++ [⟨name, env.stepMs tr.length⟩]

/-- `Number.isFinite` on a possibly-absent value. -/
def jsIsFiniteO : Option JSNum → Bool
  | some v => v.isFinite
  | none => false

/-- The pipeline's result type: a thrown error, or the verdict together
with the updated cooldown map and the effects issued (tagged by step). -/
def RunResult : Type := Except JsErr (Verdict × CooldownMap × List (String × Eff))

/-- Steps 8–10 of `runProtections` (pool state, fallback token, profit
lock) and the success verdict; nothing here can fail the run. -/
def runFinish (cfg : Cfg) (env : Env) (cd : CooldownMap) (p : Params)
    (slip : SlipVerdict) (pt : ProfitVerdict) (gas : GasVerdict)
    (effs : List (String × Eff)) (tr : List TraceEntry) : RunResult :=
  let poolPart : Option (V2State ⊕ V3State) × List Eff :=
    if jsTruthyStr p.v2PairAddr then
      let r := getV2Reserves env.v2 (p.v2PairAddr.getD "")
      (r.1.map Sum.inl, r.2)
    else if jsTruthyStr p.v3PoolAddr then
      let r := getV3State env.v3 (p.v3PoolAddr.getD "")
      (r.1.map Sum.inr, r.2)
    else (none, [])
  let effs := effs ++ poolPart.2.map (fun e => ("poolState", e))
  let tr := stepPush env tr "poolState"
  let fbTokens := resolveFlashFallbackTokens cfg p.fallbackTokens
  let fbPart : Option FallbackVerdict × List Eff :=
    if fbTokens.length ≠ 0 then
      let r := chooseFallbackToken env.fallbackBalanceOf p.wallet 0 fbTokens
      (some r.1, r.2)
    else (none, [])
  let effs := effs ++ fbPart.2.map (fun e => ("fallback", e))
  let tr := stepPush env tr "fallback"
  let lockInput : JSNum := match pt.profitUsd with
    | some q => .fin q
    | none => p.profitUsd.getD (.fin 0)
  let lock := lockProfit lockInput (3/4)
  let tr := stepPush env tr "lock"
  .ok (⟨true, none, .success slip pt gas poolPart.1 fbPart.1 lock, tr⟩, cd, effs)

/-- Step 7 of `runProtections`: flash-loan availability, evaluated only
when candidates were supplied, otherwise recorded as a no-op step. -/
def runFlashPhase (cfg : Cfg) (env : Env) (cd : CooldownMap) (p : Params)
    (slip : SlipVerdict) (pt : ProfitVerdict) (gas : GasVerdict)
    (effs : List (String × Eff)) (tr : List TraceEntry) : RunResult :=
  if p.flashCandidates.length ≠ 0 then
    let flr := isFlashLoanAvailable cfg env.ercBalanceOf p.flashCandidates
    let effs := effs ++ flr.2.map (fun e => ("flashLoan", e))
    let tr := stepPush env tr "flashLoan"
    if !flr.1.ok then .ok (⟨false, some "flashNotAvailable", .flash flr.1, tr⟩, cd, effs)
    else runFinish cfg env cd p slip pt gas effs tr
  else
    let tr := stepPush env tr "flashLoan"
    runFinish cfg env cd p slip pt gas effs tr

/-- Step 6 of `runProtections`: wallet balance, evaluated only when
`neededBalance?.token` is truthy, otherwise recorded as a no-op step.
The guard itself can throw (uncaught `BigInt(neededBalance.amountWei)`),
and the pipeline does not catch it. -/
def runWalletPhase (cfg : Cfg) (env : Env) (cd : CooldownMap) (p : Params)
    (slip : SlipVerdict) (pt : ProfitVerdict) (gas : GasVerdict)
    (effs : List (String × Eff)) (tr : List TraceEntry) : RunResult :=
  match p.neededBalance with
  | some nb =>
    if jsTruthyStr nb.token then
      match hasWalletBalance env.nativeBalance env.ercBalanceOf p.wallet nb.token nb.amountWei with
      | .error e => .error e
      | .ok (wb, wbEffs) =>
        let effs := effs ++ wbEffs.map (fun e => ("walletBalance", e))
        let tr := stepPush env tr "walletBalance"
        if !wb.ok then .ok (⟨false, some "insufficientBalance", .wallet wb, tr⟩, cd, effs)
        else runFlashPhase cfg env cd p slip pt gas effs tr
    else
      let tr := stepPush env tr "walletBalance"
      runFlashPhase cfg env cd p slip pt gas effs tr
  | none =>
    let tr := stepPush env tr "walletBalance"
    runFlashPhase cfg env cd p slip pt gas effs tr

/-- `runProtections(params)`: the composed, ordered, short-circuiting
guard pipeline. -/
def runProtections (cfg : Cfg) (env : Env) (cd : CooldownMap) (p : Params) : RunResult :=
  let cdr := enforceCooldown cfg env.nowCooldown cd p.routeKey
  let tr := stepPush env [] "cooldown"
  if !cdr.1.ok then .ok (⟨false, some "cooldown", .cooldown cdr.1, tr⟩, cdr.2, [])
  else
    let cd' := cdr.2
    let mevr := isMEVRisk cfg env.nowMev env.mevFile env.mevWriteOk
    let effs := mevr.2.map (fun e => ("mev", e))
    let tr := stepPush env tr "mev"
    if mevr.1.risk then .ok (⟨false, some "mevRisk", .mev mevr.1, tr⟩, cd', effs)
    else
      match validateSlippage cfg p.expectedOut p.minOut with
      | .error e => .error e
      | .ok slip =>
        let tr := stepPush env tr "slippage"
        if !slip.ok then .ok (⟨false, some "slippage", .slippage slip, tr⟩, cd', effs)
        else
          let ptr : ProfitVerdict × List Eff :=
            if jsIsFiniteO p.profitUsd && jsIsFiniteO p.notionalUsd then
              (meetsProfitThresholdUSD cfg (p.profitUsd.getD (.fin 0))
                (p.notionalUsd.getD (.fin 0)), [])
            else
              meetsProfitThresholdUSD_Chainlink cfg env.chainlinkPrice env.tokenDecimals
                p.profitToken p.profitAmountWei p.notionalToken p.notionalAmountWei p.feedMap
          let effs := effs ++ ptr.2.map (fun e => ("profit", e))
          let tr := stepPush env tr "profit"
          if !ptr.1.ok then .ok (⟨false, some "profitBelowThreshold", .profit ptr.1, tr⟩, cd', effs)
          else
            let gasr := assessGas cfg env.feeResult env.gasEstimate
            let effs := effs ++ gasr.2.map (fun e => ("gas", e))
            let tr := stepPush env tr "gas"
            if !gasr.1.ok then .ok (⟨false, some "gasBad", .gas gasr.1, tr⟩, cd', effs)
            else runWalletPhase cfg env cd' p slip ptr.1 gasr.1 effs tr

/-- The verdict of a completed (non-throwing) run. -/
def runVerdict? : RunResult → Option Verdict
  | .ok (v, _, _) => some v
  | .error _ => none

/-- The tagged effects of a completed run. -/
def runEffs? : RunResult → Option (List (String × Eff))
  | .ok (_, _, effs) => some effs
  | .error _ => none

/-- Whether the run threw. -/
def runThrew : RunResult → Bool
  | .ok _ => false
  | .error _ => true

/-- The canonical step order of the pipeline's trace. -/
def stepOrder : List String :=
  ["cooldown", "mev", "slippage", "profit", "gas", "walletBalance",
   "flashLoan", "poolState", "fallback", "lock"]

/-- A concrete environment for evaluating the model on sample runs. -/
def sampleEnv : Env where
  nowCooldown := 1000000
  nowMev := 1000000
  stepMs := fun _ => 0
  mevFile := .absent
  mevWriteOk := true
  feeResult := some { gasPrice := some (.big 100) }
  gasEstimate := 21000
  nativeBalance := some 100
  ercBalanceOf := fun _ _ => some 100
  fallbackBalanceOf := fun _ _ => none
  chainlinkPrice := fun _ => none
  tokenDecimals := fun _ => 18
  v2 := fun _ => none
  v3 := fun _ => none

/-- Concrete parameters for evaluating the model on sample runs. -/
def sampleParams : Params where
  routeKey := "r"
  expectedOut := .big 1000
  minOut := .big 990
  profitUsd := some (.fin 50)
  notionalUsd := some (.fin 100)


/-- The environment with the three step-8/9 data sources (pool state
and fallback balances) replaced; every other field — everything the
seven required guards read — is untouched. -/
def envPool (env : Env) (f : String → Option V2State) (g : String → Option V3State)
    (hb : String → String → Option ℤ) : Env :=
  { env with v2 := f, v3 := g, fallbackBalanceOf := hb }

/-- The trace after the first `k` steps of the pipeline. -/
def traceUpTo (env : Env) (k : ℕ) : List TraceEntry :=
  (stepOrder.take k).foldl (stepPush env) []

/-! ## Theorems: standalone guards -/

/-- Pushing a step appends its name. -/
theorem stepPush_names (env : Env) (tr : List TraceEntry) (name : String) :
    (stepPush env tr name).map (·.name) = tr.map (·.name) ++ [name] := by
  simp [stepPush]

/-- Folding `stepPush` over a name list appends those names. -/
theorem foldl_stepPush_names (env : Env) (l : List String) (tr : List TraceEntry) :
    ((l.foldl (stepPush env) tr).map (·.name)) = tr.map (·.name) ++ l := by
  induction l generalizing tr with
  | nil => simp
  | cons a l ih => simp [List.foldl_cons, ih, stepPush]

/-- The names in the first-`k`-steps trace are the first `k` step names. -/
theorem traceUpTo_names (env : Env) (k : ℕ) :
    (traceUpTo env k).map (·.name) = stepOrder.take k := by
  simp [traceUpTo, foldl_stepPush_names]


/-- The abort reason the pipeline attaches when the guard recorded under
the given step name fails. -/
def abortReason : String → Option String
  | "cooldown" => some "cooldown"
  | "mev" => some "mevRisk"
  | "slippage" => some "slippage"
  | "profit" => some "profitBelowThreshold"
  | "gas" => some "gasBad"
  | "walletBalance" => some "insufficientBalance"
  | "flashLoan" => some "flashNotAvailable"
  | _ => none

/-- Whether a `details` payload embeds a failing guard verdict. -/
def detailsFailing : Details → Bool
  | .cooldown d => !d.ok
  | .mev d => d.risk
  | .slippage d => !d.ok
  | .profit d => !d.ok
  | .gas d => !d.ok
  | .wallet d => !d.ok
  | .flash d => !d.ok
  | .success _ _ _ _ _ _ => false

/-- The condition under which the pipeline evaluates the wallet-balance
guard: the supplied `neededBalance` object has a truthy `token`. -/
def walletGate (p : Params) : Bool :=
  match p.neededBalance with
  | some nb => jsTruthyStr nb.token
  | none => false

/-- C2: for bigint inputs with `expectedOut > 0` and
`0 ≤ minOut ≤ expectedOut`, the slippage guard reports
`slippageBps = ⌊(expectedOut-minOut)·10000/expectedOut⌋` and passes iff
`slippageBps ≤ maxSlippageBps` (boundary-inclusive); a non-positive
`expectedOut` fails as `expectedOut<=0`, and `minOut > expectedOut`
fails as `minOut>expectedOut`. -/
theorem validateSlippage_spec (cfg : Cfg) (eo mo : ℤ) :
    (0 < eo → 0 ≤ mo → mo ≤ eo →
      validateSlippage cfg (.big eo) (.big mo) =
        .ok { ok := decide (⌊(((eo - mo) * 10000 : ℤ) : ℚ) / ((eo : ℤ) : ℚ)⌋ ≤ cfg.maxSlippageBps),
              slippageBps := ⌊(((eo - mo) * 10000 : ℤ) : ℚ) / ((eo : ℤ) : ℚ)⌋,
              maxSlippageBps := cfg.maxSlippageBps, reason := none } ∧
      (∀ w, validateSlippage cfg (.big eo) (.big mo) = .ok w →
        (w.ok = true ↔ w.slippageBps ≤ cfg.maxSlippageBps))) ∧
    (eo ≤ 0 →
      validateSlippage cfg (.big eo) (.big mo) =
        .ok { ok := false, slippageBps := 10000, maxSlippageBps := cfg.maxSlippageBps,
              reason := some "expectedOut<=0" }) ∧
    (0 < eo → eo < mo →
      validateSlippage cfg (.big eo) (.big mo) =
        .ok { ok := false, slippageBps := 10000, maxSlippageBps := cfg.maxSlippageBps,
              reason := some "minOut>expectedOut" }) := by
  have key : 0 < eo → 0 ≤ mo → mo ≤ eo →
      validateSlippage cfg (.big eo) (.big mo) =
        .ok { ok := decide (⌊(((eo - mo) * 10000 : ℤ) : ℚ) / ((eo : ℤ) : ℚ)⌋ ≤ cfg.maxSlippageBps),
              slippageBps := ⌊(((eo - mo) * 10000 : ℤ) : ℚ) / ((eo : ℤ) : ℚ)⌋,
              maxSlippageBps := cfg.maxSlippageBps, reason := none } := by
    intro heo h0 hle
    have hq : ¬ ((JsArith.big eo).toQ ≤ 0) := by
      simp only [JsArith.toQ, not_le]
      exact_mod_cast heo
    have hq2 : ¬ ((JsArith.big mo).toQ > (JsArith.big eo).toQ) := by
      simp only [JsArith.toQ, not_lt]
      exact_mod_cast hle
    have hnum : (0 : ℤ) ≤ (eo - mo) * 10000 :=
      mul_nonneg (sub_nonneg.mpr hle) (by norm_num)
    have htd : ((eo - mo) * 10000).tdiv eo =
        ⌊(((eo - mo) * 10000 : ℤ) : ℚ) / ((eo : ℤ) : ℚ)⌋ := by
      have h1 : ((eo - mo) * 10000).tdiv eo = (eo - mo) * 10000 / eo :=
        Int.tdiv_eq_ediv hnum heo.le
      have h2 : (eo : ℚ) = ((eo.toNat : ℕ) : ℚ) := by
        exact_mod_cast congrArg (fun z : ℤ => (z : ℚ)) (Int.toNat_of_nonneg heo.le).symm
      have h3 : ⌊(((eo - mo) * 10000 : ℤ) : ℚ) / ((eo.toNat : ℕ) : ℚ)⌋ =
          (eo - mo) * 10000 / (eo.toNat : ℤ) := Rat.floor_intCast_div_natCast _ _
      rw [h2, h3, Int.toNat_of_nonneg heo.le, h1]
    simp only [validateSlippage, if_neg hq, if_neg hq2, JsArith.sub, JsArith.mulBig10000,
      bind, Except.bind, htd]
  refine ⟨fun heo h0 hle => ⟨key heo h0 hle, fun w hw => ?_⟩, fun heo => ?_, fun heo hlt => ?_⟩
  · rw [key heo h0 hle] at hw
    cases hw
    simp
  · have hq : (JsArith.big eo).toQ ≤ 0 := by
      simp only [JsArith.toQ]
      exact_mod_cast heo
    simp only [validateSlippage, if_pos hq]
  · have hq : ¬ ((JsArith.big eo).toQ ≤ 0) := by
      simp only [JsArith.toQ, not_le]
      exact_mod_cast heo
    have hq2 : (JsArith.big mo).toQ > (JsArith.big eo).toQ := by
      simp only [JsArith.toQ, gt_iff_lt]
      exact_mod_cast hlt
    simp only [validateSlippage, if_neg hq, if_pos hq2]

/-- C2 witness: spec scenario A, `expectedOut=1000, minOut=990`,
ceiling 100 bps: `slippageBps = 100` and the guard passes
(boundary-inclusive). -/
theorem validateSlippage_spec_witness :
    validateSlippage {} (.big 1000) (.big 990) =
      .ok { ok := true, slippageBps := 100, maxSlippageBps := 100, reason := none } := by
  have h := (validateSlippage_spec {} 1000 990).1 (by decide) (by decide) (by decide)
  rw [h.1]
  decide

/-- C8: the cooldown guard fails with `msRemaining = window - (now -
last)` exactly when `now - last < window`, leaving the stored timestamp
unchanged; otherwise it records `now` for the key (and no other key) and
passes; two immediate successive calls for the same key yield `ok=true`
then `ok=false` with `msRemaining = window - (now₂ - now)`. -/
theorem enforceCooldown_spec (cfg : Cfg) (now : ℤ) (m : CooldownMap) (key : String) :
    ((enforceCooldown cfg now m key).1.ok = false ↔ now - m key < cfg.cooldownMs) ∧
    (now - m key < cfg.cooldownMs →
      enforceCooldown cfg now m key =
        ({ ok := false, msRemaining := some (cfg.cooldownMs - (now - m key)) }, m)) ∧
    (cfg.cooldownMs ≤ now - m key →
      (enforceCooldown cfg now m key).1 = { ok := true } ∧
      (enforceCooldown cfg now m key).2 key = now ∧
      (∀ k2, k2 ≠ key → (enforceCooldown cfg now m key).2 k2 = m k2)) ∧
    (∀ now2, cfg.cooldownMs ≤ now - m key → now2 - now < cfg.cooldownMs →
      (enforceCooldown cfg now m key).1.ok = true ∧
      (enforceCooldown cfg now2 (enforceCooldown cfg now m key).2 key).1 =
        { ok := false, msRemaining := some (cfg.cooldownMs - (now2 - now)) }) := by
  by_cases h : now - m key < cfg.cooldownMs
  · refine ⟨by simp [enforceCooldown, h], fun _ => by simp [enforceCooldown, h],
      fun h2 => absurd h (not_lt.mpr h2), fun now2 h2 _ => absurd h (not_lt.mpr h2)⟩
  · have hpass : enforceCooldown cfg now m key =
        ({ ok := true }, fun k => if k = key then now else m k) := by
      simp [enforceCooldown, h]
    refine ⟨by simp [hpass, h], fun hlt => absurd hlt h,
      fun _ => ⟨by simp [hpass], by simp [hpass], fun k2 hk2 => by simp [hpass, hk2]⟩,
      fun now2 _ hlt2 => ⟨by simp [hpass], ?_⟩⟩
    rw [hpass]
    simp [enforceCooldown, hlt2]

/-- C8 witness: a fresh key at `now = 100000` passes, and an immediate
second call at `now₂ = 100001` fails with `msRemaining = 2999` (the
3000 ms window minus the 1 ms elapsed). -/
theorem enforceCooldown_spec_witness :
    (enforceCooldown {} 100000 (fun _ => 0) "route").1.ok = true ∧
    (enforceCooldown {} 100001 (enforceCooldown {} 100000 (fun _ => 0) "route").2 "route").1 =
      { ok := false, msRemaining := some 2999 } := by
  have h := (enforceCooldown_spec {} 100000 (fun _ => 0) "route").2.2.2 100001
    (by decide) (by decide)
  exact ⟨h.1, by rw [h.2]; decide⟩

/-- C7: the MEV guard reports risk iff some queue entry is within the
lookback window; an absent file or non-array content is no risk, a
thrown read/parse error is risk; exactly the in-window entries survive
in the pruned copy, which is written back iff entries were dropped; and
the result never depends on the write-back outcome. -/
theorem isMEVRisk_spec (cfg : Cfg) (now : ℤ) (q : List (Option ℤ)) (w : Bool) :
    ((isMEVRisk cfg now (.arr q) w).1.risk = true ↔
      ∃ e ∈ q, now - e.getD 0 < cfg.mevLookbackMs) ∧
    (isMEVRisk cfg now .absent w).1.risk = false ∧
    (isMEVRisk cfg now .notArray w).1.risk = false ∧
    (isMEVRisk cfg now .readError w).1.risk = true ∧
    (∀ e, e ∈ q.filter (mevRecent cfg now) ↔
      e ∈ q ∧ now - e.getD 0 < cfg.mevLookbackMs) ∧
    ((Eff.fsWrite (q.filter (mevRecent cfg now)) ∈ (isMEVRisk cfg now (.arr q) w).2) ↔
      (q.filter (mevRecent cfg now)).length ≠ q.length) ∧
    (∀ f w2, (isMEVRisk cfg now f w).1 = (isMEVRisk cfg now f w2).1) := by
  refine ⟨?_, rfl, rfl, rfl, ?_, ?_, ?_⟩
  · by_cases hlen : (q.filter (mevRecent cfg now)).length ≠ q.length <;>
      simp [isMEVRisk, hlen, List.any_eq_true, mevRecent]
  · intro e
    simp [List.mem_filter, mevRecent]
  · by_cases hlen : (q.filter (mevRecent cfg now)).length ≠ q.length <;>
      simp [isMEVRisk, hlen]
  · intro f w2
    cases f <;> rfl

/-- C7 witness: spec scenario C with `now = 1000000`: an entry 5000 ms
old inside the 10000 ms window is a risk and nothing is pruned, while
after the window has elapsed the same entry is pruned (triggering a
write-back of the empty queue) and no risk is reported. -/
theorem isMEVRisk_spec_witness :
    (isMEVRisk {} 1000000 (.arr [some 995000]) true).1.risk = true ∧
    (isMEVRisk {} 1011000 (.arr [some 995000]) true).1.risk = false ∧
    Eff.fsWrite [] ∈ (isMEVRisk {} 1011000 (.arr [some 995000]) true).2 := by
  refine ⟨(isMEVRisk_spec {} 1000000 [some 995000] true).1.mpr
      ⟨some 995000, by decide, by decide⟩, ?_, ?_⟩
  · have h := (isMEVRisk_spec {} 1011000 [some 995000] true).1
    have hne : ¬ ∃ e ∈ [some (995000 : ℤ)],
        (1011000 : ℤ) - e.getD 0 < ({} : Cfg).mevLookbackMs := by decide
    cases hr : (isMEVRisk {} 1011000 (.arr [some 995000]) true).1.risk
    · rfl
    · exact absurd (h.mp hr) hne
  · have h := ((isMEVRisk_spec {} 1011000 [some 995000] true).2.2.2.2.2.1).mpr
    have : ([some (995000:ℤ)].filter (mevRecent {} 1011000)) = [] := by decide
    rw [this] at h
    exact h (by decide)

/-- `|| 0` keeps every finite number unchanged (including `0`, whose
replacement is itself). -/
theorem JSNum.orZero_fin (q : ℚ) : JSNum.orZero (.fin q) = .fin q := by
  by_cases h : q = 0 <;> simp [JSNum.orZero, JSNum.truthy, h]

/-- `|| 0` maps `NaN` to `0`. -/
theorem JSNum.orZero_nan : JSNum.orZero .nan = .fin 0 := rfl

/-- `|| 0` keeps `+Infinity` (truthy). -/
theorem JSNum.orZero_inf : JSNum.orZero .inf = .inf := rfl

/-- `|| 0` keeps `-Infinity` (truthy). -/
theorem JSNum.orZero_ninf : JSNum.orZero .ninf = .ninf := rfl

/-- C5 (amended): the direct profit guard reports `invalidInputs`
exactly for an infinite input — a `NaN` input is coerced to `0` by the
`|| 0` default, behaving exactly like a `0` input; for finite inputs,
it passes iff profit meets the USD threshold and
`floor(profit/notional·10000)` meets the bps threshold, with
`notional ≤ 0` forcing the bps figure to `0`. -/
theorem meetsProfitThresholdUSD_spec (cfg : Cfg) (p n : JSNum) :
    ((meetsProfitThresholdUSD cfg p n).reason = some "invalidInputs" ↔
      (p = .inf ∨ p = .ninf ∨ n = .inf ∨ n = .ninf)) ∧
    (∀ pq nq, p = .fin pq → n = .fin nq →
      ((meetsProfitThresholdUSD cfg p n).ok = true ↔
        (cfg.profitThresholdUsd ≤ pq ∧
          cfg.profitThresholdBps ≤ ((if 0 < nq then ⌊pq / nq * 10000⌋ else 0 : ℤ) : ℚ)))) ∧
    (meetsProfitThresholdUSD cfg .nan n = meetsProfitThresholdUSD cfg (.fin 0) n) ∧
    (meetsProfitThresholdUSD cfg p .nan = meetsProfitThresholdUSD cfg p (.fin 0)) := by
  refine ⟨?_, ?_, ?_, ?_⟩
  · cases p <;> cases n <;>
      simp [meetsProfitThresholdUSD, JSNum.orZero_fin, JSNum.orZero_nan, JSNum.orZero_inf,
        JSNum.orZero_ninf, JSNum.isFinite]
  · intro pq nq hp hn
    subst hp; subst hn
    simp [meetsProfitThresholdUSD, JSNum.orZero_fin, JSNum.isFinite, JSNum.val, ge_iff_le]
  · cases n <;>
      simp [meetsProfitThresholdUSD, JSNum.orZero_fin, JSNum.orZero_nan, JSNum.orZero_inf,
        JSNum.orZero_ninf, JSNum.isFinite, JSNum.val]
  · cases p <;>
      simp [meetsProfitThresholdUSD, JSNum.orZero_fin, JSNum.orZero_nan, JSNum.orZero_inf,
        JSNum.orZero_ninf, JSNum.isFinite, JSNum.val]

/-- C5 counterexample: a `NaN` profit input is not rejected as
`invalidInputs` (the claim says every non-finite input, `NaN` included,
fails with that reason): the verdict carries no reason at all, and the
guard has silently treated the profit as `0`. -/
theorem meetsProfitThresholdUSD_nan_counterexample :
    (meetsProfitThresholdUSD {} .nan (.fin 1)).reason ≠ some "invalidInputs" ∧
    (meetsProfitThresholdUSD {} .nan (.fin 1)).profitUsd = some 0 := by
  refine ⟨by decide, by decide⟩

/-- C5 witness: at `profit = 50, notional = 100` under the default
thresholds (0 USD, 100 bps), the guard passes: `5000` bps clears the
threshold. -/
theorem meetsProfitThresholdUSD_spec_witness :
    (meetsProfitThresholdUSD {} (.fin 50) (.fin 100)).ok = true :=
  ((meetsProfitThresholdUSD_spec {} (.fin 50) (.fin 100)).2.1 50 100 rfl rfl).mpr
    (by refine ⟨by norm_num, ?_⟩; rw [if_pos (by norm_num)]; decide)

/-- C6: the gas guard selects the EIP-1559 model iff both 1559 fields
are present (else legacy iff `gasPrice` is present, else
`noGasPriceAndNo1559`); a fee above the wei ceiling fails with the
model's distinctive reason without issuing the gas-estimation call
(its effect list is just the fee read); with an acceptable fee, a zero
estimate fails as `gasEstimationFailed` and an estimate above the
gas-limit ceiling as the distinct `gasLimitTooHigh`. -/
theorem assessGas_spec (cfg : Cfg) (fd : FeeData) (est : ℤ) :
    (assessGas cfg none est = ({ ok := false, reason := some "feeDataNull" }, [.feeData])) ∧
    ((fd.maxFeePerGas.isSome && fd.maxPriorityFeePerGas.isSome) = false →
      fd.gasPrice = none →
      assessGas cfg (some fd) est =
        ({ ok := false, reason := some "noGasPriceAndNo1559" }, [.feeData])) ∧
    (∀ m, fd.maxFeePerGas = some (.big m) → fd.maxPriorityFeePerGas.isSome = true →
      cfg.highGasWei < m →
      assessGas cfg (some fd) est =
        ({ ok := false, reason := some "maxFeePerGasTooHigh", maxFeePerGas := some (.big m) },
         [.feeData])) ∧
    (∀ g, (fd.maxFeePerGas.isSome && fd.maxPriorityFeePerGas.isSome) = false →
      fd.gasPrice = some (.big g) → cfg.highGasWei < g →
      assessGas cfg (some fd) est =
        ({ ok := false, reason := some "gasPriceTooHigh", gasPrice := some (.big g) },
         [.feeData])) ∧
    (∀ m, fd.maxFeePerGas = some (.big m) → fd.maxPriorityFeePerGas.isSome = true →
      m ≤ cfg.highGasWei →
      (est = 0 → assessGas cfg (some fd) est =
        ({ ok := false, reason := some "gasEstimationFailed" }, [.feeData, .estimateGas])) ∧
      (est ≠ 0 → cfg.gasLimitMax < est → assessGas cfg (some fd) est =
        ({ ok := false, reason := some "gasLimitTooHigh", gasLimit := some est },
         [.feeData, .estimateGas])) ∧
      (est ≠ 0 → est ≤ cfg.gasLimitMax → assessGas cfg (some fd) est =
        ({ ok := true, gasLimit := some est, maxFeePerGas := fd.maxFeePerGas,
           maxPriorityFeePerGas := fd.maxPriorityFeePerGas }, [.feeData, .estimateGas]))) ∧
    (∀ g, (fd.maxFeePerGas.isSome && fd.maxPriorityFeePerGas.isSome) = false →
      fd.gasPrice = some (.big g) → g ≤ cfg.highGasWei →
      (est = 0 → assessGas cfg (some fd) est =
        ({ ok := false, reason := some "gasEstimationFailed" }, [.feeData, .estimateGas])) ∧
      (est ≠ 0 → cfg.gasLimitMax < est → assessGas cfg (some fd) est =
        ({ ok := false, reason := some "gasLimitTooHigh", gasLimit := some est },
         [.feeData, .estimateGas])) ∧
      (est ≠ 0 → est ≤ cfg.gasLimitMax → assessGas cfg (some fd) est =
        ({ ok := true, gasLimit := some est, gasPrice := fd.gasPrice },
         [.feeData, .estimateGas]))) := by
  have hnone : ∀ (o : Option JsCast), o.isSome = false → o = none := by
    intro o ho; cases o with
    | none => rfl
    | some v => simp at ho
  refine ⟨rfl, ?_, ?_, ?_, ?_, ?_⟩
  · intro h1559 hgp
    rcases Bool.and_eq_false_iff.mp h1559 with h | h <;>
      simp [assessGas, assessGasFeeCheck, hnone _ h, hgp]
  · intro m hm hp hgt
    obtain ⟨mp, hmp⟩ := Option.isSome_iff_exists.mp hp
    simp [assessGas, assessGasFeeCheck, hm, hmp, jsBigInt, gt_iff_lt, hgt]
  · intro g h1559 hgp hgt
    rcases Bool.and_eq_false_iff.mp h1559 with h | h <;>
      simp [assessGas, assessGasFeeCheck, hnone _ h, hgp, jsBigInt, gt_iff_lt, hgt]
  · intro m hm hp hle
    obtain ⟨mp, hmp⟩ := Option.isSome_iff_exists.mp hp
    have hng : ¬ (m > cfg.highGasWei) := not_lt.mpr hle
    refine ⟨fun h0 => ?_, fun hne hbig => ?_, fun hne hok => ?_⟩
    · subst h0
      simp [assessGas, assessGasFeeCheck, hm, hmp, jsBigInt, hng]
    · simp [assessGas, assessGasFeeCheck, hm, hmp, jsBigInt, hng, hne, gt_iff_lt, hbig]
    · simp [assessGas, assessGasFeeCheck, hm, hmp, jsBigInt, hng, hne, gt_iff_lt,
        not_lt.mpr hok]
  · intro g h1559 hgp hle
    have hng : ¬ (g > cfg.highGasWei) := not_lt.mpr hle
    refine ⟨fun h0 => ?_, fun hne hbig => ?_, fun hne hok => ?_⟩ <;>
      rcases Bool.and_eq_false_iff.mp h1559 with h | h
    · subst h0
      simp [assessGas, assessGasFeeCheck, hnone _ h, hgp, jsBigInt, hng]
    · subst h0
      simp [assessGas, assessGasFeeCheck, hnone _ h, hgp, jsBigInt, hng]
    · simp [assessGas, assessGasFeeCheck, hnone _ h, hgp, jsBigInt, hng, hne, gt_iff_lt, hbig]
    · simp [assessGas, assessGasFeeCheck, hnone _ h, hgp, jsBigInt, hng, hne, gt_iff_lt, hbig]
    · simp [assessGas, assessGasFeeCheck, hnone _ h, hgp, jsBigInt, hng, hne, gt_iff_lt,
        not_lt.mpr hok]
    · simp [assessGas, assessGasFeeCheck, hnone _ h, hgp, jsBigInt, hng, hne, gt_iff_lt,
        not_lt.mpr hok]

/-- C6 witness: spec scenario E: with both 1559 fields present and
`maxFeePerGas` one wei above the 300 gwei ceiling, the guard fails with
`maxFeePerGasTooHigh` and issues no gas-estimation call; with the fee
at the ceiling and a 21000 estimate it passes. -/
theorem assessGas_spec_witness :
    assessGas {} (some { maxFeePerGas := some (.big 300000000001),
                         maxPriorityFeePerGas := some (.big 1) }) 21000 =
      ({ ok := false, reason := some "maxFeePerGasTooHigh",
         maxFeePerGas := some (.big 300000000001) }, [.feeData]) ∧
    assessGas {} (some { maxFeePerGas := some (.big 300000000000),
                         maxPriorityFeePerGas := some (.big 1) }) 21000 =
      ({ ok := true, gasLimit := some 21000, maxFeePerGas := some (.big 300000000000),
         maxPriorityFeePerGas := some (.big 1) }, [.feeData, .estimateGas]) := by
  constructor
  · exact (assessGas_spec {} { maxFeePerGas := some (.big 300000000001),
                               maxPriorityFeePerGas := some (.big 1) } 21000).2.2.1
      300000000001 rfl rfl (by decide)
  · exact ((assessGas_spec {} { maxFeePerGas := some (.big 300000000000),
                                maxPriorityFeePerGas := some (.big 1) } 21000).2.2.2.2.1
      300000000000 rfl rfl (by decide)).2.2 (by decide) (by decide)

/-- The `if (want < safeAmount) safeAmount = want` pattern computes a
minimum. -/
theorem jsMin_eq (a b : ℤ) : (if a < b then a else b) = min a b := by
  rw [min_def]
  split <;> split <;> omega

/-- The slippage percentage the source applies (after the `|| 1`
default, `Math.floor` and clamping) is at least the claim's
`clamp(slippagePercent, 0, 99)` and at most 99, for integer input. -/
theorem rtc_sp_le (n : ℤ) :
    max 0 (min 99 n) ≤ max 0 (min 99 ⌊(if (n : ℚ) = 0 then 1 else (n : ℚ))⌋) ∧
    max 0 (min 99 ⌊(if (n : ℚ) = 0 then 1 else (n : ℚ))⌋) ≤ 99 := by
  by_cases h : n = 0
  · subst h
    norm_num
  · rw [if_neg (by exact_mod_cast h), Int.floor_intCast]
    exact ⟨le_refl _, max_le (by norm_num) (min_le_left 99 n)⟩

/-- The cap the source computes never exceeds the claim's
`baseQuantity * (100 - clamp(slippagePercent, 0, 99)) / 100` (integer
arithmetic), for a nonnegative base quantity. -/
theorem rtc_cap_mono (base n : ℤ) (hb : 0 ≤ base) :
    Int.tdiv (base * (100 - max 0 (min 99 ⌊(if (n : ℚ) = 0 then 1 else (n : ℚ))⌋))) 100 ≤
      Int.tdiv (base * (100 - max 0 (min 99 n))) 100 := by
  obtain ⟨h1, h2⟩ := rtc_sp_le n
  have hs : (0 : ℤ) ≤ 100 - max 0 (min 99 ⌊(if (n : ℚ) = 0 then 1 else (n : ℚ))⌋) := by omega
  have hnum1 : 0 ≤ base * (100 - max 0 (min 99 ⌊(if (n : ℚ) = 0 then 1 else (n : ℚ))⌋)) :=
    mul_nonneg hb hs
  have hle : base * (100 - max 0 (min 99 ⌊(if (n : ℚ) = 0 then 1 else (n : ℚ))⌋)) ≤
      base * (100 - max 0 (min 99 n)) :=
    mul_le_mul_of_nonneg_left (by omega) hb
  rw [Int.tdiv_eq_ediv hnum1 (by norm_num), Int.tdiv_eq_ediv (le_trans hnum1 hle) (by norm_num)]
  exact Int.ediv_le_ediv (by norm_num) hle

/-- C9: the reserve-cap calculator never returns more than the desired
amount nor more than `baseQuantity * (100 - clamp(slippagePercent, 0,
99)) / 100` in integer arithmetic, where the base quantity is the
`tokenIn`-side reserve for the V2 pool type and the liquidity figure
for the V3 pool type; any fetch/conversion error or unknown pool type
yields `{safeAmount: 0, info: null}` instead of an exception. -/
theorem reserveTradeCheck_spec (fetch : RtcFetch) (tokenIn : String) (d : JsCast) (n : ℤ) :
    (∀ t0 t1 r0 r1 want, fetch.v2 = .ok (t0, t1, r0, r1) → jsBigInt d = some want →
      0 ≤ r0 → 0 ≤ r1 →
      (reserveTradeCheck fetch "V2" tokenIn d (n : ℚ)).safeAmount ≤ want ∧
      (reserveTradeCheck fetch "V2" tokenIn d (n : ℚ)).safeAmount ≤
        Int.tdiv ((if jsToLower t0 = jsToLower tokenIn then r0 else r1) *
          (100 - max 0 (min 99 n))) 100) ∧
    (∀ sq liq t0 t1 want, fetch.v3 = .ok (sq, liq, t0, t1) → jsBigInt d = some want →
      0 ≤ liq →
      (reserveTradeCheck fetch "V3" tokenIn d (n : ℚ)).safeAmount ≤ want ∧
      (reserveTradeCheck fetch "V3" tokenIn d (n : ℚ)).safeAmount ≤
        Int.tdiv (liq * (100 - max 0 (min 99 n))) 100) ∧
    (∀ sp : ℚ, fetch.v2 = .error () → reserveTradeCheck fetch "V2" tokenIn d sp = ⟨0, none⟩) ∧
    (∀ sp : ℚ, fetch.v3 = .error () → reserveTradeCheck fetch "V3" tokenIn d sp = ⟨0, none⟩) ∧
    (∀ sp : ℚ, jsBigInt d = none →
      reserveTradeCheck fetch "V2" tokenIn d sp = ⟨0, none⟩ ∧
      reserveTradeCheck fetch "V3" tokenIn d sp = ⟨0, none⟩) ∧
    (∀ pt, pt ≠ "V2" → pt ≠ "V3" → ∀ sp : ℚ,
      reserveTradeCheck fetch pt tokenIn d sp = ⟨0, none⟩) := by
  refine ⟨?_, ?_, ?_, ?_, ?_, ?_⟩
  · intro t0 t1 r0 r1 want hv2 hd hr0 hr1
    have hbase : 0 ≤ (if jsToLower t0 = jsToLower tokenIn then r0 else r1) := by
      split <;> assumption
    have hmono := rtc_cap_mono (if jsToLower t0 = jsToLower tokenIn then r0 else r1) n hbase
    simp only [reserveTradeCheck, hv2, hd, if_true, if_false]
    set B := (if jsToLower t0 = jsToLower tokenIn then r0 else r1) with hB
    rw [jsMin_eq]
    exact ⟨min_le_left _ _, le_trans (min_le_right _ _) hmono⟩
  · intro sq liq t0 t1 want hv3 hd hliq
    have hmono := rtc_cap_mono liq n hliq
    unfold reserveTradeCheck
    rw [if_neg (by decide : ¬ ("V3" : String) = "V2"),
      if_pos (rfl : ("V3" : String) = "V3")]
    simp only [hv3, hd]
    rw [jsMin_eq]
    exact ⟨min_le_left _ _, le_trans (min_le_right _ _) hmono⟩
  · intro sp hv2
    simp [reserveTradeCheck, hv2]
  · intro sp hv3
    simp [reserveTradeCheck, hv3]
  · intro sp hd
    constructor <;> cases h2 : fetch.v2 <;> cases h3 : fetch.v3 <;>
      simp [reserveTradeCheck, hd, h2, h3]
  · intro pt h2 h3 sp
    simp [reserveTradeCheck, h2, h3]

/-- C9 witness: a V2 pool with reserves `(1000, 2000)`, matching
`tokenIn` on `token0`, desired amount `500`, slippage `5`%: the safe
amount (500, under the 950 cap) respects both bounds. -/
theorem reserveTradeCheck_spec_witness :
    (reserveTradeCheck ⟨.ok ("0xA", "0xB", 1000, 2000), .error ()⟩ "V2" "0xa" (.big 500)
      ((5 : ℤ) : ℚ)).safeAmount ≤ 500 ∧
    (reserveTradeCheck ⟨.ok ("0xA", "0xB", 1000, 2000), .error ()⟩ "V2" "0xa" (.big 500)
      ((5 : ℤ) : ℚ)).safeAmount ≤
      Int.tdiv ((if jsToLower "0xA" = jsToLower "0xa" then 1000 else 2000) *
        (100 - max 0 (min 99 (5 : ℤ)))) 100 :=
  (reserveTradeCheck_spec ⟨.ok ("0xA", "0xB", 1000, 2000), .error ()⟩ "0xa" (.big 500) 5).1
    "0xA" "0xB" 1000 2000 500 rfl rfl (by decide) (by decide)

/-- C4 (amended): the profit-lock split is drift-free at the
integer-cent level — `lockedCents + leftoverCents = cents =
round(profitUsd·100)` exactly — and the returned decimal dollars are
the correctly-rounded doubles of `lockedCents/100` and
`leftoverCents/100`; whenever those two quotients happen to be exactly
representable, the returned values sum exactly to `cents/100` (the
counterexample shows this fails in general).  Non-positive or
non-finite profit yields `{locked: 0, leftover: 0}`. -/
theorem lockProfit_spec (q : ℚ) :
    (0 < q →
      ∃ cents lockedCents : ℤ,
        cents = jsRound (fl (q * 100)) ∧
        lockedCents = jsRound (fl ((cents : ℚ) * (3/4))) ∧
        lockProfit (.fin q) (3/4) =
          { locked := fl ((lockedCents : ℚ) / 100),
            leftover := fl (((cents - lockedCents : ℤ) : ℚ) / 100) } ∧
        lockedCents + (cents - lockedCents) = cents ∧
        (fl ((lockedCents : ℚ) / 100) = (lockedCents : ℚ) / 100 →
          fl (((cents - lockedCents : ℤ) : ℚ) / 100) = ((cents - lockedCents : ℤ) : ℚ) / 100 →
          (lockProfit (.fin q) (3/4)).locked + (lockProfit (.fin q) (3/4)).leftover =
            (cents : ℚ) / 100)) ∧
    (q ≤ 0 → lockProfit (.fin q) (3/4) = ⟨0, 0⟩) ∧
    lockProfit .nan (3/4) = ⟨0, 0⟩ ∧
    lockProfit .inf (3/4) = ⟨0, 0⟩ ∧
    lockProfit .ninf (3/4) = ⟨0, 0⟩ := by
  refine ⟨fun hq => ?_, fun hq => by simp [lockProfit, hq], rfl, rfl, rfl⟩
  have hq' : ¬ (q ≤ 0) := not_le.mpr hq
  have heq : lockProfit (.fin q) (3/4) =
      { locked := fl (((jsRound (fl ((jsRound (fl (q * 100)) : ℚ) * (3/4))) : ℤ) : ℚ) / 100),
        leftover := fl ((((jsRound (fl (q * 100)) : ℤ) -
          (jsRound (fl ((jsRound (fl (q * 100)) : ℚ) * (3/4))) : ℤ) : ℤ) : ℚ) / 100) } := by
    simp [lockProfit, hq']
  refine ⟨jsRound (fl (q * 100)), jsRound (fl ((jsRound (fl (q * 100)) : ℚ) * (3/4))),
    rfl, rfl, heq, by ring, fun h1 h2 => ?_⟩
  rw [heq]
  dsimp only
  rw [h1, h2]
  push_cast
  ring

/-- C4 counterexample: at the double nearest `0.06` (6 cents), the
returned `locked = 0.05` and `leftover = 0.01` doubles do not sum
exactly to `round(profitUsd·100)/100 = 0.06` — binary64 cannot
represent these decimals, so the sum drifts by one unit in the last
place — and `locked` is likewise not exactly
`round(round(profitUsd·100)·0.75)/100 = 0.05`. -/
theorem lockProfit_drift_counterexample :
    (lockProfit (.fin (fl (6/100))) (3/4)).locked +
        (lockProfit (.fin (fl (6/100))) (3/4)).leftover ≠
      ((jsRound (fl (fl (6/100) * 100)) : ℤ) : ℚ) / 100 ∧
    (lockProfit (.fin (fl (6/100))) (3/4)).locked ≠
      ((jsRound (((jsRound (fl (fl (6/100) * 100)) : ℤ) : ℚ) * (3/4)) : ℤ) : ℚ) / 100 := by
  refine ⟨by decide, by decide⟩

/-- C4 witness: at `profitUsd = 1` (100 cents) both quotients are
exactly representable, so the split is `0.75 / 0.25` and sums exactly
to one dollar. -/
theorem lockProfit_spec_witness :
    lockProfit (.fin 1) (3/4) = { locked := 3/4, leftover := 1/4 } := by
  obtain ⟨c, lc, hc, hlc, heq, hsum, hcond⟩ := (lockProfit_spec 1).1 (by norm_num)
  subst hc
  subst hlc
  rw [heq]
  decide

/-! ## Theorems: the composed pipeline -/

/-- Steps 8–10 always succeed: whatever the pool-state, fallback and
lock data (the three `envPool`-replaceable sources), `runFinish`
returns an `ok = true` verdict, extends the trace by exactly
`poolState`, `fallback`, `lock`, and only appends effects tagged with
those steps. -/
theorem runFinish_cases (cfg : Cfg) (env : Env) (cd : CooldownMap) (p : Params)
    (slip : SlipVerdict) (pt : ProfitVerdict) (gas : GasVerdict)
    (effs : List (String × Eff)) (tr : List TraceEntry)
    (f : String → Option V2State) (g : String → Option V3State)
    (hb : String → String → Option ℤ) :
    ∃ d postE, (∀ x ∈ postE, x.1 = "poolState" ∨ x.1 = "fallback") ∧
      runFinish cfg (envPool env f g hb) cd p slip pt gas effs tr =
        .ok ({ ok := true, reason := none, details := d,
               trace := stepPush env (stepPush env (stepPush env tr "poolState") "fallback")
                 "lock" }, cd, effs ++ postE) := by
  have hshape : ∃ (d : Details) (A B : List Eff),
      runFinish cfg (envPool env f g hb) cd p slip pt gas effs tr =
      .ok ({ ok := true, reason := none, details := d,
             trace := stepPush (envPool env f g hb)
               (stepPush (envPool env f g hb) (stepPush (envPool env f g hb) tr "poolState")
                 "fallback") "lock" }, cd,
        (effs ++ A.map (fun e => ("poolState", e))) ++ B.map (fun e => ("fallback", e))) :=
    ⟨_, _, _, rfl⟩
  obtain ⟨d, A, B, hE⟩ := hshape
  refine ⟨d, A.map (fun e => ("poolState", e)) ++ B.map (fun e => ("fallback", e)), ?_, ?_⟩
  · intro x hx
    rcases List.mem_append.mp hx with h | h <;>
      rcases List.mem_map.mp h with ⟨e, _, rfl⟩ <;> simp
  · rw [hE, ← List.append_assoc]
    rfl

/-- Step 7 either aborts with `flashNotAvailable` (recording the
`flashLoan` step) or hands over to the always-succeeding steps 8–10;
either way only `flashLoan`/`poolState`/`fallback`-tagged effects are
appended. -/
theorem runFlashPhase_cases (cfg : Cfg) (env : Env) (cd : CooldownMap) (p : Params)
    (slip : SlipVerdict) (pt : ProfitVerdict) (gas : GasVerdict)
    (effs : List (String × Eff)) (tr : List TraceEntry) :
    (∃ fv postE, (∀ x ∈ postE, x.1 = "flashLoan") ∧ fv.ok = false ∧
      ∀ f g hb, runFlashPhase cfg (envPool env f g hb) cd p slip pt gas effs tr =
        .ok ({ ok := false, reason := some "flashNotAvailable", details := .flash fv,
               trace := stepPush env tr "flashLoan" }, cd, effs ++ postE)) ∨
    (∀ f g hb, ∃ d postE,
      (∀ x ∈ postE, x.1 = "flashLoan" ∨ x.1 = "poolState" ∨ x.1 = "fallback") ∧
      runFlashPhase cfg (envPool env f g hb) cd p slip pt gas effs tr =
        .ok ({ ok := true, reason := none, details := d,
               trace := stepPush env (stepPush env (stepPush env (stepPush env tr "flashLoan")
                 "poolState") "fallback") "lock" }, cd, effs ++ postE)) := by
  by_cases hfc : p.flashCandidates.length ≠ 0
  · by_cases hok : (isFlashLoanAvailable cfg env.ercBalanceOf p.flashCandidates).1.ok
    · right
      intro f g hb
      obtain ⟨d, postE, htags, hE⟩ := runFinish_cases cfg env cd p slip pt gas
        (effs ++ (isFlashLoanAvailable cfg env.ercBalanceOf p.flashCandidates).2.map
          (fun e => ("flashLoan", e)))
        (stepPush env tr "flashLoan") f g hb
      refine ⟨d, (isFlashLoanAvailable cfg env.ercBalanceOf p.flashCandidates).2.map
        (fun e => ("flashLoan", e)) ++ postE, ?_, ?_⟩
      · intro x hx
        rcases List.mem_append.mp hx with h | h
        · rcases List.mem_map.mp h with ⟨e, _, rfl⟩
          simp
        · exact Or.inr (htags x h)
      · rw [show runFlashPhase cfg (envPool env f g hb) cd p slip pt gas effs tr =
            runFinish cfg (envPool env f g hb) cd p slip pt gas
              (effs ++ (isFlashLoanAvailable cfg env.ercBalanceOf p.flashCandidates).2.map
                (fun e => ("flashLoan", e)))
              (stepPush env tr "flashLoan") from by
              simp [runFlashPhase, envPool, hfc, hok, stepPush], hE, ← List.append_assoc]
    · left
      refine ⟨(isFlashLoanAvailable cfg env.ercBalanceOf p.flashCandidates).1,
        (isFlashLoanAvailable cfg env.ercBalanceOf p.flashCandidates).2.map
          (fun e => ("flashLoan", e)), ?_, by simpa using hok, ?_⟩
      · intro x hx
        rcases List.mem_map.mp hx with ⟨e, _, rfl⟩
        simp
      · intro f g hb
        simp [runFlashPhase, envPool, hfc, hok, stepPush]
  · right
    intro f g hb
    obtain ⟨d, postE, htags, hE⟩ := runFinish_cases cfg env cd p slip pt gas effs
      (stepPush env tr "flashLoan") f g hb
    refine ⟨d, postE, fun x hx => Or.inr (htags x hx), ?_⟩
    rw [show runFlashPhase cfg (envPool env f g hb) cd p slip pt gas effs tr =
        runFinish cfg (envPool env f g hb) cd p slip pt gas effs
          (stepPush env tr "flashLoan") from by simp [runFlashPhase, envPool, hfc, stepPush], hE]

/-- The wallet guard, when it completes, always reports exactly one
balance query. -/
theorem hasWalletBalance_effs_ne_nil (nbal : Option ℤ) (eb : String → String → Option ℤ)
    (w : String) (t : Option String) (nd : JsCast) (wb : WalletVerdict)
    (es : List Eff) (h : hasWalletBalance nbal eb w t nd = .ok (wb, es)) : es ≠ [] := by
  unfold hasWalletBalance at h
  cases hx : jsBigInt nd with
  | none =>
    rw [hx] at h
    simp at h
  | some m =>
    rw [hx] at h
    cases t with
    | none =>
      dsimp only at h
      simp only [Except.ok.injEq, Prod.mk.injEq] at h
      rw [← h.2]
      simp
    | some s =>
      dsimp only at h
      by_cases hs : s = "" ∨ s = zeroAddress
      · rw [if_pos hs] at h
        simp only [Except.ok.injEq, Prod.mk.injEq] at h
        rw [← h.2]
        simp
      · rw [if_neg hs] at h
        simp only [Except.ok.injEq, Prod.mk.injEq] at h
        rw [← h.2]
        simp

/-- Step 6 either throws the uncaught `BigInt` conversion error, aborts
with `insufficientBalance`, or (evaluated-and-passed or skipped) hands
over to step 7 — with a wallet-tagged effect appended iff the
`neededBalance?.token` gate held. -/
theorem runWalletPhase_cases (cfg : Cfg) (env : Env) (cd : CooldownMap) (p : Params)
    (slip : SlipVerdict) (pt : ProfitVerdict) (gas : GasVerdict)
    (effs : List (String × Eff)) (tr : List TraceEntry) :
    (walletGate p = true ∧ ∃ nb err, p.neededBalance = some nb ∧
      hasWalletBalance env.nativeBalance env.ercBalanceOf p.wallet nb.token nb.amountWei =
        .error err ∧
      ∀ f g hb, runWalletPhase cfg (envPool env f g hb) cd p slip pt gas effs tr =
        .error err) ∨
    (walletGate p = true ∧ ∃ nb wb wE, p.neededBalance = some nb ∧
      (∀ x ∈ wE, x.1 = "walletBalance") ∧ wE ≠ [] ∧ wb.ok = false ∧
      ∀ f g hb, runWalletPhase cfg (envPool env f g hb) cd p slip pt gas effs tr =
        .ok ({ ok := false, reason := some "insufficientBalance", details := .wallet wb,
               trace := stepPush env tr "walletBalance" }, cd, effs ++ wE)) ∨
    (∃ wE, (∀ x ∈ wE, x.1 = "walletBalance") ∧
      (walletGate p = false → wE = []) ∧ (walletGate p = true → wE ≠ []) ∧
      ∀ f g hb, runWalletPhase cfg (envPool env f g hb) cd p slip pt gas effs tr =
        runFlashPhase cfg (envPool env f g hb) cd p slip pt gas (effs ++ wE)
          (stepPush env tr "walletBalance")) := by
  cases hnb : p.neededBalance with
  | none =>
    right; right
    refine ⟨[], by simp, fun _ => rfl, ?_, ?_⟩
    · intro hg
      simp [walletGate, hnb] at hg
    · intro f g hb
      simp [runWalletPhase, hnb, stepPush, envPool]
  | some nb =>
    by_cases htok : jsTruthyStr nb.token
    · have hgate : walletGate p = true := by simp [walletGate, hnb, htok]
      cases hw : hasWalletBalance env.nativeBalance env.ercBalanceOf p.wallet nb.token
        nb.amountWei with
      | error err =>
        left
        exact ⟨hgate, nb, err, rfl, hw,
          fun f g hb => by simp [runWalletPhase, hnb, htok, hw, envPool]⟩
      | ok pr =>
        obtain ⟨wb, wbE⟩ := pr
        have hne : wbE ≠ [] := hasWalletBalance_effs_ne_nil _ _ _ _ _ _ _ hw
        have hmapne : wbE.map (fun e => (("walletBalance", e) : String × Eff)) ≠ [] := by
          intro hmap
          exact hne (List.map_eq_nil_iff.mp hmap)
        by_cases hwb : wb.ok
        · right; right
          refine ⟨wbE.map (fun e => ("walletBalance", e)), ?_, ?_, fun _ => hmapne, ?_⟩
          · intro x hx
            rcases List.mem_map.mp hx with ⟨e, _, rfl⟩
            simp
          · intro hgf
            rw [hgate] at hgf
            cases hgf
          · intro f g hb
            simp [runWalletPhase, hnb, htok, hw, hwb, envPool, stepPush]
        · right; left
          refine ⟨hgate, nb, wb, wbE.map (fun e => ("walletBalance", e)), rfl, ?_,
            hmapne, by simpa using hwb, ?_⟩
          · intro x hx
            rcases List.mem_map.mp hx with ⟨e, _, rfl⟩
            simp
          · intro f g hb
            simp [runWalletPhase, hnb, htok, hw, hwb, envPool, stepPush]
    · have hgate : walletGate p = false := by simp [walletGate, hnb, htok]
      right; right
      refine ⟨[], by simp, fun _ => rfl, ?_, ?_⟩
      · intro hg
        rw [hgate] at hg
        cases hg
      · intro f g hb
        simp [runWalletPhase, hnb, htok, envPool, stepPush]

/-- The complete case analysis of a pipeline run: it either aborts at
one of the seven ordered guards (with that guard's reason, its failing
verdict in `details`, and the trace cut at that step), throws from one
of the two uncaught spots (mixed-type slippage arithmetic, wallet
`BigInt` conversion), or succeeds with the full ten-step trace — and
every abort/success shape is independent of the pool-state and
fallback-balance data sources. -/
theorem runProtections_cases (cfg : Cfg) (env : Env) (cd : CooldownMap) (p : Params) :
    (∃ cv cm, enforceCooldown cfg env.nowCooldown cd p.routeKey = (cv, cm) ∧ cv.ok = false ∧
      ∀ f g hb, runProtections cfg (envPool env f g hb) cd p =
        .ok ({ ok := false, reason := some "cooldown", details := .cooldown cv,
               trace := traceUpTo env 1 }, cm, [])) ∨
    (∃ cm mv preE, (∀ x ∈ preE, x.1 = "mev") ∧ mv.risk = true ∧
      ∀ f g hb, runProtections cfg (envPool env f g hb) cd p =
        .ok ({ ok := false, reason := some "mevRisk", details := .mev mv,
               trace := traceUpTo env 2 }, cm, preE)) ∨
    (∃ err, validateSlippage cfg p.expectedOut p.minOut = .error err ∧
      ∀ f g hb, runProtections cfg (envPool env f g hb) cd p = .error err) ∨
    (∃ cm slip preE, (∀ x ∈ preE, x.1 = "mev") ∧
      validateSlippage cfg p.expectedOut p.minOut = .ok slip ∧ slip.ok = false ∧
      ∀ f g hb, runProtections cfg (envPool env f g hb) cd p =
        .ok ({ ok := false, reason := some "slippage", details := .slippage slip,
               trace := traceUpTo env 3 }, cm, preE)) ∨
    (∃ cm pt preE, (∀ x ∈ preE, x.1 = "mev" ∨ x.1 = "profit") ∧ pt.ok = false ∧
      ∀ f g hb, runProtections cfg (envPool env f g hb) cd p =
        .ok ({ ok := false, reason := some "profitBelowThreshold", details := .profit pt,
               trace := traceUpTo env 4 }, cm, preE)) ∨
    (∃ cm gv preE, (∀ x ∈ preE, x.1 = "mev" ∨ x.1 = "profit" ∨ x.1 = "gas") ∧
      gv.ok = false ∧
      ∀ f g hb, runProtections cfg (envPool env f g hb) cd p =
        .ok ({ ok := false, reason := some "gasBad", details := .gas gv,
               trace := traceUpTo env 5 }, cm, preE)) ∨
    (walletGate p = true ∧ ∃ nb err, p.neededBalance = some nb ∧
      hasWalletBalance env.nativeBalance env.ercBalanceOf p.wallet nb.token nb.amountWei =
        .error err ∧
      ∀ f g hb, runProtections cfg (envPool env f g hb) cd p = .error err) ∨
    (walletGate p = true ∧ ∃ cm wb preE wE,
      (∀ x ∈ preE, x.1 = "mev" ∨ x.1 = "profit" ∨ x.1 = "gas") ∧
      (∀ x ∈ wE, x.1 = "walletBalance") ∧ wE ≠ [] ∧ wb.ok = false ∧
      ∀ f g hb, runProtections cfg (envPool env f g hb) cd p =
        .ok ({ ok := false, reason := some "insufficientBalance", details := .wallet wb,
               trace := traceUpTo env 6 }, cm, preE ++ wE)) ∨
    (∃ cm fv preE wE postE,
      (∀ x ∈ preE, x.1 = "mev" ∨ x.1 = "profit" ∨ x.1 = "gas") ∧
      (∀ x ∈ wE, x.1 = "walletBalance") ∧
      (walletGate p = false → wE = []) ∧ (walletGate p = true → wE ≠ []) ∧
      (∀ x ∈ postE, x.1 = "flashLoan") ∧ fv.ok = false ∧
      ∀ f g hb, runProtections cfg (envPool env f g hb) cd p =
        .ok ({ ok := false, reason := some "flashNotAvailable", details := .flash fv,
               trace := traceUpTo env 7 }, cm, preE ++ wE ++ postE)) ∨
    (∃ cm preE wE,
      (∀ x ∈ preE, x.1 = "mev" ∨ x.1 = "profit" ∨ x.1 = "gas") ∧
      (∀ x ∈ wE, x.1 = "walletBalance") ∧
      (walletGate p = false → wE = []) ∧ (walletGate p = true → wE ≠ []) ∧
      ∀ f g hb, ∃ d postE,
        (∀ x ∈ postE, x.1 = "flashLoan" ∨ x.1 = "poolState" ∨ x.1 = "fallback") ∧
        runProtections cfg (envPool env f g hb) cd p =
          .ok ({ ok := true, reason := none, details := d, trace := traceUpTo env 10 }, cm,
            preE ++ wE ++ postE)) := by
  rcases hcd : enforceCooldown cfg env.nowCooldown cd p.routeKey with ⟨cv, cm⟩
  by_cases h1 : cv.ok
  case neg =>
    refine Or.inl ⟨cv, cm, rfl, by simpa using h1, fun f g hb => ?_⟩
    simp [runProtections, envPool, hcd, h1, stepPush, traceUpTo, stepOrder]
  case pos =>
  rcases hm : isMEVRisk cfg env.nowMev env.mevFile env.mevWriteOk with ⟨mv, me⟩
  by_cases h2 : mv.risk
  case pos =>
    refine Or.inr (Or.inl ⟨cm, mv, me.map (fun e => ("mev", e)), ?_, h2, fun f g hb => ?_⟩)
    · intro x hx
      rcases List.mem_map.mp hx with ⟨e, _, rfl⟩
      rfl
    · simp [runProtections, envPool, hcd, h1, hm, h2, stepPush, traceUpTo, stepOrder]
  case neg =>
  have h2' : mv.risk = false := by simpa using h2
  rcases hs : validateSlippage cfg p.expectedOut p.minOut with err | slip
  case error =>
    refine Or.inr (Or.inr (Or.inl ⟨err, rfl, fun f g hb => ?_⟩))
    simp [runProtections, envPool, hcd, h1, hm, h2', hs]
  case ok =>
  by_cases h3 : slip.ok
  case neg =>
    have h3' : slip.ok = false := by simpa using h3
    refine Or.inr (Or.inr (Or.inr (Or.inl
      ⟨cm, slip, me.map (fun e => ("mev", e)), ?_, rfl, h3', fun f g hb => ?_⟩)))
    · intro x hx
      rcases List.mem_map.mp hx with ⟨e, _, rfl⟩
      rfl
    · simp [runProtections, envPool, hcd, h1, hm, h2', hs, h3', stepPush, traceUpTo,
        stepOrder]
  case pos =>
  rcases hp : (if jsIsFiniteO p.profitUsd && jsIsFiniteO p.notionalUsd then
      (meetsProfitThresholdUSD cfg (p.profitUsd.getD (.fin 0)) (p.notionalUsd.getD (.fin 0)),
        ([] : List Eff))
    else
      meetsProfitThresholdUSD_Chainlink cfg env.chainlinkPrice env.tokenDecimals
        p.profitToken p.profitAmountWei p.notionalToken p.notionalAmountWei p.feedMap)
    with ⟨pt, ptE⟩
  simp only [Bool.and_eq_true] at hp
  by_cases h4 : pt.ok
  case neg =>
    have h4' : pt.ok = false := by simpa using h4
    refine Or.inr (Or.inr (Or.inr (Or.inr (Or.inl
      ⟨cm, pt, me.map (fun e => ("mev", e)) ++ ptE.map (fun e => ("profit", e)), ?_, h4',
        fun f g hb => ?_⟩))))
    · intro x hx
      rcases List.mem_append.mp hx with h | h <;> rcases List.mem_map.mp h with ⟨e, _, rfl⟩
      · exact Or.inl rfl
      · exact Or.inr rfl
    · simp [runProtections, envPool, hcd, h1, hm, h2', hs, h3, hp, h4', stepPush,
        traceUpTo, stepOrder]
  case pos =>
  rcases hg : assessGas cfg env.feeResult env.gasEstimate with ⟨gv, gE⟩
  by_cases h5 : gv.ok
  case neg =>
    have h5' : gv.ok = false := by simpa using h5
    refine Or.inr (Or.inr (Or.inr (Or.inr (Or.inr (Or.inl
      ⟨cm, gv, me.map (fun e => ("mev", e)) ++ ptE.map (fun e => ("profit", e)) ++
        gE.map (fun e => ("gas", e)), ?_, h5', fun f g hb => ?_⟩)))))
    · intro x hx
      rcases List.mem_append.mp hx with h | h
      · rcases List.mem_append.mp h with h | h <;> rcases List.mem_map.mp h with ⟨e, _, rfl⟩
        · exact Or.inl rfl
        · exact Or.inr (Or.inl rfl)
      · rcases List.mem_map.mp h with ⟨e, _, rfl⟩
        exact Or.inr (Or.inr rfl)
    · simp [runProtections, envPool, hcd, h1, hm, h2', hs, h3, hp, h4, hg, h5', stepPush,
        traceUpTo, stepOrder]
  case pos =>
  have hpre : ∀ x ∈ me.map (fun e => (("mev", e) : String × Eff)) ++
      ptE.map (fun e => ("profit", e)) ++ gE.map (fun e => ("gas", e)),
      x.1 = "mev" ∨ x.1 = "profit" ∨ x.1 = "gas" := by
    intro x hx
    rcases List.mem_append.mp hx with h | h
    · rcases List.mem_append.mp h with h | h <;> rcases List.mem_map.mp h with ⟨e, _, rfl⟩
      · exact Or.inl rfl
      · exact Or.inr (Or.inl rfl)
    · rcases List.mem_map.mp h with ⟨e, _, rfl⟩
      exact Or.inr (Or.inr rfl)
  have hred : ∀ (f : String → Option V2State) (g : String → Option V3State)
      (hb : String → String → Option ℤ),
      runProtections cfg (envPool env f g hb) cd p =
        runWalletPhase cfg (envPool env f g hb) cm p slip pt gv
          (me.map (fun e => ("mev", e)) ++ ptE.map (fun e => ("profit", e)) ++
            gE.map (fun e => ("gas", e))) (traceUpTo env 5) := by
    intro f g hb
    simp [runProtections, envPool, hcd, h1, hm, h2', hs, h3, hp, h4, hg, h5, stepPush,
      traceUpTo, stepOrder]
  rcases runWalletPhase_cases cfg env cm p slip pt gv
      (me.map (fun e => ("mev", e)) ++ ptE.map (fun e => ("profit", e)) ++
        gE.map (fun e => ("gas", e))) (traceUpTo env 5) with
    ⟨hgate, nb, err, hnb, hwerr, weq⟩ | ⟨hgate, nb, wb, wE, hnb, wtags, wne, hwb, weq⟩ |
    ⟨wE, wtags, wgf, wgt, weq⟩
  · exact Or.inr (Or.inr (Or.inr (Or.inr (Or.inr (Or.inr (Or.inl
      ⟨hgate, nb, err, hnb, hwerr, fun f g hb => (hred f g hb).trans (weq f g hb)⟩))))))
  · exact Or.inr (Or.inr (Or.inr (Or.inr (Or.inr (Or.inr (Or.inr (Or.inl
      ⟨hgate, cm, wb, _, wE, hpre, wtags, wne, hwb,
        fun f g hb => (hred f g hb).trans (weq f g hb)⟩)))))))
  · rcases runFlashPhase_cases cfg env cm p slip pt gv
        ((me.map (fun e => ("mev", e)) ++ ptE.map (fun e => ("profit", e)) ++
          gE.map (fun e => ("gas", e))) ++ wE)
        (stepPush env (traceUpTo env 5) "walletBalance") with
      ⟨fv, postE, ftags, hfv, feq⟩ | fsucc
    · refine Or.inr (Or.inr (Or.inr (Or.inr (Or.inr (Or.inr (Or.inr (Or.inr (Or.inl
        ⟨cm, fv, _, wE, postE, hpre, wtags, wgf, wgt, ftags, hfv, fun f g hb => ?_⟩))))))))
      exact ((hred f g hb).trans (weq f g hb)).trans (feq f g hb)
    · refine Or.inr (Or.inr (Or.inr (Or.inr (Or.inr (Or.inr (Or.inr (Or.inr (Or.inr
        ⟨cm, _, wE, hpre, wtags, wgf, wgt, fun f g hb => ?_⟩))))))))
      obtain ⟨d, postE, ptags, feq⟩ := fsucc f g hb
      exact ⟨d, postE, ptags, ((hred f g hb).trans (weq f g hb)).trans feq⟩

/-- C1: a completed run's trace is a prefix of the fixed step order
cooldown, mev, slippage, profit, gas, walletBalance, flashLoan,
poolState, fallback, lock; the verdict is `ok` exactly when the whole
order ran; a failing run stops at its last recorded step, whose guard's
failing verdict and canonical reason it reports; the optional steps
8–10 appear in the trace only on `ok = true` runs; and replacing the
pool-state/fallback data sources (steps 8–9's inputs) with anything —
including always-failing ones — never changes `ok`, `reason` or the
trace. -/
theorem runProtections_order_spec (cfg : Cfg) (env : Env) (cd : CooldownMap) (p : Params)
    (v : Verdict) (cm : CooldownMap) (effs : List (String × Eff))
    (h : runProtections cfg env cd p = .ok (v, cm, effs)) :
    (v.trace.map (·.name)) <+: stepOrder ∧
    (v.ok = true ↔ v.trace.map (·.name) = stepOrder) ∧
    (v.ok = false →
      ∃ pre last, v.trace.map (·.name) = pre ++ [last] ∧
        v.reason = abortReason last ∧ detailsFailing v.details = true) ∧
    ("poolState" ∈ v.trace.map (·.name) → v.ok = true) ∧
    (∀ f g hb, ∃ v2 cm2 effs2,
      runProtections cfg (envPool env f g hb) cd p = .ok (v2, cm2, effs2) ∧
      v2.ok = v.ok ∧ v2.reason = v.reason ∧ v2.trace = v.trace) := by
  have hself : envPool env env.v2 env.v3 env.fallbackBalanceOf = env := rfl
  rcases runProtections_cases cfg env cd p with
    ⟨cv, cm', hcd, hcv, heq⟩ | ⟨cm', mv, preE, htags, hmv, heq⟩ | ⟨err, hserr, heq⟩ |
    ⟨cm', slip, preE, htags, hsok, hsf, heq⟩ | ⟨cm', pt, preE, htags, hpf, heq⟩ |
    ⟨cm', gv, preE, htags, hgf, heq⟩ | ⟨hgate, nb, err, hnbe, hwerr, heq⟩ |
    ⟨hgate, cm', wb, preE, wE, htags, hwtags, hwne, hwf, heq⟩ |
    ⟨cm', fv, preE, wE, postE, htags, hwtags, hwgf, hwgt, hptags, hff, heq⟩ |
    ⟨cm', preE, wE, htags, hwtags, hwgf, hwgt, heq⟩
  · have h0 := heq env.v2 env.v3 env.fallbackBalanceOf
    rw [hself] at h0
    rw [h0] at h
    injection h with hpair
    injection hpair with hv hrest
    injection hrest with hcm heffs
    subst hv
    refine ⟨?_, ?_, fun _ => ?_, ?_, fun f g hb => ⟨_, _, _, heq f g hb, rfl, rfl, rfl⟩⟩
    · rw [traceUpTo_names]
      exact List.take_prefix _ _
    · dsimp only
      rw [traceUpTo_names]
      decide
    · exact ⟨[], "cooldown", by rw [traceUpTo_names]; decide, rfl, by simp [detailsFailing, hcv]⟩
    · rw [traceUpTo_names]
      intro hmem
      exact absurd hmem (by decide)
  · have h0 := heq env.v2 env.v3 env.fallbackBalanceOf
    rw [hself] at h0
    rw [h0] at h
    injection h with hpair
    injection hpair with hv hrest
    injection hrest with hcm heffs
    subst hv
    refine ⟨?_, ?_, fun _ => ?_, ?_, fun f g hb => ⟨_, _, _, heq f g hb, rfl, rfl, rfl⟩⟩
    · rw [traceUpTo_names]
      exact List.take_prefix _ _
    · dsimp only
      rw [traceUpTo_names]
      decide
    · exact ⟨["cooldown"], "mev", by rw [traceUpTo_names]; decide, rfl,
        by simp [detailsFailing, hmv]⟩
    · rw [traceUpTo_names]
      intro hmem
      exact absurd hmem (by decide)
  · have h0 := heq env.v2 env.v3 env.fallbackBalanceOf
    rw [hself] at h0
    rw [h0] at h
    simp at h
  · have h0 := heq env.v2 env.v3 env.fallbackBalanceOf
    rw [hself] at h0
    rw [h0] at h
    injection h with hpair
    injection hpair with hv hrest
    injection hrest with hcm heffs
    subst hv
    refine ⟨?_, ?_, fun _ => ?_, ?_, fun f g hb => ⟨_, _, _, heq f g hb, rfl, rfl, rfl⟩⟩
    · rw [traceUpTo_names]
      exact List.take_prefix _ _
    · dsimp only
      rw [traceUpTo_names]
      decide
    · exact ⟨["cooldown", "mev"], "slippage", by rw [traceUpTo_names]; decide, rfl,
        by simp [detailsFailing, hsf]⟩
    · rw [traceUpTo_names]
      intro hmem
      exact absurd hmem (by decide)
  · have h0 := heq env.v2 env.v3 env.fallbackBalanceOf
    rw [hself] at h0
    rw [h0] at h
    injection h with hpair
    injection hpair with hv hrest
    injection hrest with hcm heffs
    subst hv
    refine ⟨?_, ?_, fun _ => ?_, ?_, fun f g hb => ⟨_, _, _, heq f g hb, rfl, rfl, rfl⟩⟩
    · rw [traceUpTo_names]
      exact List.take_prefix _ _
    · dsimp only
      rw [traceUpTo_names]
      decide
    · exact ⟨["cooldown", "mev", "slippage"], "profit", by rw [traceUpTo_names]; decide, rfl,
        by simp [detailsFailing, hpf]⟩
    · rw [traceUpTo_names]
      intro hmem
      exact absurd hmem (by decide)
  · have h0 := heq env.v2 env.v3 env.fallbackBalanceOf
    rw [hself] at h0
    rw [h0] at h
    injection h with hpair
    injection hpair with hv hrest
    injection hrest with hcm heffs
    subst hv
    refine ⟨?_, ?_, fun _ => ?_, ?_, fun f g hb => ⟨_, _, _, heq f g hb, rfl, rfl, rfl⟩⟩
    · rw [traceUpTo_names]
      exact List.take_prefix _ _
    · dsimp only
      rw [traceUpTo_names]
      decide
    · exact ⟨["cooldown", "mev", "slippage", "profit"], "gas", by rw [traceUpTo_names]; decide,
        rfl, by simp [detailsFailing, hgf]⟩
    · rw [traceUpTo_names]
      intro hmem
      exact absurd hmem (by decide)
  · have h0 := heq env.v2 env.v3 env.fallbackBalanceOf
    rw [hself] at h0
    rw [h0] at h
    simp at h
  · have h0 := heq env.v2 env.v3 env.fallbackBalanceOf
    rw [hself] at h0
    rw [h0] at h
    injection h with hpair
    injection hpair with hv hrest
    injection hrest with hcm heffs
    subst hv
    refine ⟨?_, ?_, fun _ => ?_, ?_, fun f g hb => ⟨_, _, _, heq f g hb, rfl, rfl, rfl⟩⟩
    · rw [traceUpTo_names]
      exact List.take_prefix _ _
    · dsimp only
      rw [traceUpTo_names]
      decide
    · exact ⟨["cooldown", "mev", "slippage", "profit", "gas"], "walletBalance",
        by rw [traceUpTo_names]; decide, rfl, by simp [detailsFailing, hwf]⟩
    · rw [traceUpTo_names]
      intro hmem
      exact absurd hmem (by decide)
  · have h0 := heq env.v2 env.v3 env.fallbackBalanceOf
    rw [hself] at h0
    rw [h0] at h
    injection h with hpair
    injection hpair with hv hrest
    injection hrest with hcm heffs
    subst hv
    refine ⟨?_, ?_, fun _ => ?_, ?_, fun f g hb => ⟨_, _, _, heq f g hb, rfl, rfl, rfl⟩⟩
    · rw [traceUpTo_names]
      exact List.take_prefix _ _
    · dsimp only
      rw [traceUpTo_names]
      decide
    · exact ⟨["cooldown", "mev", "slippage", "profit", "gas", "walletBalance"],
        "flashLoan", by rw [traceUpTo_names]; decide, rfl, by simp [detailsFailing, hff]⟩
    · rw [traceUpTo_names]
      intro hmem
      exact absurd hmem (by decide)
  · obtain ⟨d, postE, hptags, h0⟩ := heq env.v2 env.v3 env.fallbackBalanceOf
    rw [hself] at h0
    rw [h0] at h
    injection h with hpair
    injection hpair with hv hrest
    injection hrest with hcm heffs
    subst hv
    refine ⟨?_, ?_, fun hh => by simp at hh, fun _ => rfl, fun f g hb => ?_⟩
    · rw [traceUpTo_names]
      exact List.take_prefix _ _
    · dsimp only
      rw [traceUpTo_names]
      decide
    · obtain ⟨d2, postE2, hptags2, h2⟩ := heq f g hb
      exact ⟨_, _, _, h2, rfl, rfl, rfl⟩

/-- C1 witness: a run whose cooldown guard fails (the route acted 1000
ms ago, inside the 3000 ms window) stops after the single `cooldown`
step; its one-entry trace is a prefix of the canonical order. -/
theorem runProtections_order_spec_witness :
    (([⟨"cooldown", (0 : ℤ)⟩] : List TraceEntry).map (·.name)) <+: stepOrder := by
  have h := runProtections_order_spec {} { sampleEnv with nowCooldown := 1000 }
    (fun _ => 0) sampleParams
    { ok := false, reason := some "cooldown",
      details := .cooldown { ok := false, msRemaining := some 2000 },
      trace := [⟨"cooldown", 0⟩] } (fun _ => 0) [] rfl
  exact h.1

/-- On bigint operands the slippage guard always completes (every path
returns a verdict). -/
theorem validateSlippage_big_ok (cfg : Cfg) (a b : ℤ) :
    ∃ w, validateSlippage cfg (.big a) (.big b) = .ok w := by
  unfold validateSlippage
  split
  · exact ⟨_, rfl⟩
  · split
    · exact ⟨_, rfl⟩
    · exact ⟨_, rfl⟩

/-- The wallet guard can only throw out of its `BigInt(needed)`
conversion. -/
theorem hasWalletBalance_error_cast (nbal : Option ℤ) (eb : String → String → Option ℤ)
    (w : String) (t : Option String) (nd : JsCast) (err : JsErr)
    (h : hasWalletBalance nbal eb w t nd = .error err) : jsBigInt nd = none := by
  cases hx : jsBigInt nd with
  | none => rfl
  | some m =>
    unfold hasWalletBalance at h
    rw [hx] at h
    cases t with
    | none =>
      dsimp only at h
      simp at h
    | some s =>
      dsimp only at h
      by_cases hs : s = "" ∨ s = zeroAddress
      · rw [if_pos hs] at h
        simp at h
      · rw [if_neg hs] at h
        simp at h

/-- C3 (amended): the pipeline resolves to a verdict (never lets an
exception escape) for every input whose slippage operands are both
bigints and whose wallet-balance requirement, when it is actually
checked, has a `BigInt`-convertible amount; the two uncaught throw
sites (mixed-type slippage arithmetic and the wallet `BigInt(needed)`
conversion, shown by the counterexample) are the only ways a run can
fail to produce a verdict. -/
theorem runProtections_total_spec (cfg : Cfg) (env : Env) (cd : CooldownMap) (p : Params)
    (a b : ℤ) (heo : p.expectedOut = .big a) (hmo : p.minOut = .big b)
    (hnd : ∀ nb, p.neededBalance = some nb → jsTruthyStr nb.token = true →
      jsBigInt nb.amountWei ≠ none) :
    ∃ v cm effs, runProtections cfg env cd p = .ok (v, cm, effs) := by
  have hself : envPool env env.v2 env.v3 env.fallbackBalanceOf = env := rfl
  rcases runProtections_cases cfg env cd p with
    ⟨cv, cm', hcd, hcv, heq⟩ | ⟨cm', mv, preE, htags, hmv, heq⟩ | ⟨err, hserr, heq⟩ |
    ⟨cm', slip, preE, htags, hsok, hsf, heq⟩ | ⟨cm', pt, preE, htags, hpf, heq⟩ |
    ⟨cm', gv, preE, htags, hgf, heq⟩ | ⟨hgate, nb, err, hnbe, hwerr, heq⟩ |
    ⟨hgate, cm', wb, preE, wE, htags, hwtags, hwne, hwf, heq⟩ |
    ⟨cm', fv, preE, wE, postE, htags, hwtags, hwgf, hwgt, hptags, hff, heq⟩ |
    ⟨cm', preE, wE, htags, hwtags, hwgf, hwgt, heq⟩
  · exact ⟨_, _, _, hself ▸ heq env.v2 env.v3 env.fallbackBalanceOf⟩
  · exact ⟨_, _, _, hself ▸ heq env.v2 env.v3 env.fallbackBalanceOf⟩
  · rw [heo, hmo] at hserr
    obtain ⟨w, hw⟩ := validateSlippage_big_ok cfg a b
    rw [hw] at hserr
    simp at hserr
  · exact ⟨_, _, _, hself ▸ heq env.v2 env.v3 env.fallbackBalanceOf⟩
  · exact ⟨_, _, _, hself ▸ heq env.v2 env.v3 env.fallbackBalanceOf⟩
  · exact ⟨_, _, _, hself ▸ heq env.v2 env.v3 env.fallbackBalanceOf⟩
  · have htok : jsTruthyStr nb.token = true := by
      simpa [walletGate, hnbe] using hgate
    exact absurd (hasWalletBalance_error_cast _ _ _ _ _ _ hwerr) (hnd nb hnbe htok)
  · exact ⟨_, _, _, hself ▸ heq env.v2 env.v3 env.fallbackBalanceOf⟩
  · exact ⟨_, _, _, hself ▸ heq env.v2 env.v3 env.fallbackBalanceOf⟩
  · obtain ⟨d, postE, hptags, h0⟩ := heq env.v2 env.v3 env.fallbackBalanceOf
    exact ⟨_, _, _, hself ▸ h0⟩

/-- C3 counterexample: with a plain-number `expectedOut` paired with a
bigint `minOut` — inputs the claim explicitly covers — the slippage
guard's `expectedOut - minOut` mixes `Number` and `BigInt` operands and
throws a `TypeError` that nothing in the pipeline catches, so the run
rejects instead of resolving to a verdict. -/
theorem runProtections_throw_counterexample :
    runThrew (runProtections {} sampleEnv (fun _ => 0)
      { sampleParams with expectedOut := .num 5, minOut := .big 1 }) = true := by decide

/-- C3 witness: on well-typed sample inputs the pipeline resolves to a
verdict. -/
theorem runProtections_total_spec_witness :
    ∃ v cm effs, runProtections {} sampleEnv (fun _ => 0) sampleParams =
      .ok (v, cm, effs) :=
  runProtections_total_spec {} sampleEnv (fun _ => 0) sampleParams 1000 990 rfl rfl
    (fun nb hnb _ => by simp [sampleParams] at hnb)

/-- C10 counterexample: a native-asset balance requirement CAN be
enforced through the pipeline. The zero address is a non-empty, truthy
string, so `neededBalance = \x7btoken: zeroAddress, amountWei: 200n\x7d`
passes the pipeline's truthy-token gate; `hasWalletBalance` then takes
its native-balance path — the run issues a native `getBalance` query
(not an ERC-20 `balanceOf`) and aborts with `insufficientBalance` on
the 100-wei native balance. -/
theorem runProtections_native_enforced_counterexample :
    runProtections {} sampleEnv (fun _ => 0)
      { sampleParams with neededBalance := some ⟨some zeroAddress, .big 200⟩ } =
      .ok ({ ok := false, reason := some "insufficientBalance",
             details := .wallet { ok := false, balance := 100 },
             trace := [⟨"cooldown", 0⟩, ⟨"mev", 0⟩, ⟨"slippage", 0⟩, ⟨"profit", 0⟩,
               ⟨"gas", 0⟩, ⟨"walletBalance", 0⟩] },
           fun k => if k = "r" then 1000000 else 0,
           [("mev", .fsRead), ("gas", .feeData), ("gas", .estimateGas),
            ("walletBalance", .getBalance "")]) := by rfl

/-- C10 (amended): in a completed run, a wallet-balance query is issued
exactly when the supplied `neededBalance` has a truthy `token` and the
pipeline reached the wallet step (which the trace records even when the
check is skipped); with the gate down the verdict can never be
`insufficientBalance`, even if an `amountWei` requirement was supplied.
The gate keys on token truthiness alone, not on token kind: a
zero-address token is truthy, passes the gate, and behaves exactly like
an absent one inside the guard — the native-balance query — so native
requirements are expressed by passing the zero address as the token,
and only an absent, null or empty-string token skips the check. -/
theorem runProtections_walletGate_spec (cfg : Cfg) (env : Env) (cd : CooldownMap)
    (p : Params) (v : Verdict) (cm : CooldownMap) (effs : List (String × Eff))
    (h : runProtections cfg env cd p = .ok (v, cm, effs)) :
    ((∃ e, (("walletBalance", e) : String × Eff) ∈ effs) → walletGate p = true) ∧
    (walletGate p = true → "walletBalance" ∈ v.trace.map (·.name) →
      ∃ e, (("walletBalance", e) : String × Eff) ∈ effs) ∧
    (walletGate p = false → v.reason ≠ some "insufficientBalance") ∧
    (∀ nbal eb w nd, hasWalletBalance nbal eb w (some zeroAddress) nd =
      hasWalletBalance nbal eb w none nd) := by
  have hzero : ∀ (nbal : Option ℤ) (eb : String → String → Option ℤ) (w : String)
      (nd : JsCast), hasWalletBalance nbal eb w (some zeroAddress) nd =
        hasWalletBalance nbal eb w none nd := by
    intro nbal eb w nd
    unfold hasWalletBalance
    cases jsBigInt nd
    · rfl
    · dsimp only
      rw [if_pos (Or.inr rfl)]
  have hself : envPool env env.v2 env.v3 env.fallbackBalanceOf = env := rfl
  rcases runProtections_cases cfg env cd p with
    ⟨cv, cm', hcd, hcv, heq⟩ | ⟨cm', mv, preE, htags, hmv, heq⟩ | ⟨err, hserr, heq⟩ |
    ⟨cm', slip, preE, htags, hsok, hsf, heq⟩ | ⟨cm', pt, preE, htags, hpf, heq⟩ |
    ⟨cm', gv, preE, htags, hgf, heq⟩ | ⟨hgate, nb, err, hnbe, hwerr, heq⟩ |
    ⟨hgate, cm', wb, preE, wE, htags, hwtags, hwne, hwf, heq⟩ |
    ⟨cm', fv, preE, wE, postE, htags, hwtags, hwgf, hwgt, hptags, hff, heq⟩ |
    ⟨cm', preE, wE, htags, hwtags, hwgf, hwgt, heq⟩
  · have h0 := heq env.v2 env.v3 env.fallbackBalanceOf
    rw [hself] at h0
    rw [h0] at h
    injection h with hpair
    injection hpair with hv hrest
    injection hrest with hcm heffs
    subst hv
    subst heffs
    refine ⟨fun ⟨e, he⟩ => absurd he (by simp), fun _ hmem => ?_, fun _ => by simp, hzero⟩
    rw [traceUpTo_names] at hmem
    exact absurd hmem (by decide)
  · have h0 := heq env.v2 env.v3 env.fallbackBalanceOf
    rw [hself] at h0
    rw [h0] at h
    injection h with hpair
    injection hpair with hv hrest
    injection hrest with hcm heffs
    subst hv
    subst heffs
    refine ⟨fun ⟨e, he⟩ => absurd (htags _ he) (by simp), fun _ hmem => ?_,
      fun _ => by simp, hzero⟩
    rw [traceUpTo_names] at hmem
    exact absurd hmem (by decide)
  · have h0 := heq env.v2 env.v3 env.fallbackBalanceOf
    rw [hself] at h0
    rw [h0] at h
    simp at h
  · have h0 := heq env.v2 env.v3 env.fallbackBalanceOf
    rw [hself] at h0
    rw [h0] at h
    injection h with hpair
    injection hpair with hv hrest
    injection hrest with hcm heffs
    subst hv
    subst heffs
    refine ⟨fun ⟨e, he⟩ => absurd (htags _ he) (by simp), fun _ hmem => ?_,
      fun _ => by simp, hzero⟩
    rw [traceUpTo_names] at hmem
    exact absurd hmem (by decide)
  · have h0 := heq env.v2 env.v3 env.fallbackBalanceOf
    rw [hself] at h0
    rw [h0] at h
    injection h with hpair
    injection hpair with hv hrest
    injection hrest with hcm heffs
    subst hv
    subst heffs
    refine ⟨fun ⟨e, he⟩ => ?_, fun _ hmem => ?_, fun _ => by simp, hzero⟩
    · rcases htags _ he with h1 | h1 <;> exact absurd h1 (by simp)
    · rw [traceUpTo_names] at hmem
      exact absurd hmem (by decide)
  · have h0 := heq env.v2 env.v3 env.fallbackBalanceOf
    rw [hself] at h0
    rw [h0] at h
    injection h with hpair
    injection hpair with hv hrest
    injection hrest with hcm heffs
    subst hv
    subst heffs
    refine ⟨fun ⟨e, he⟩ => ?_, fun _ hmem => ?_, fun _ => by simp, hzero⟩
    · rcases htags _ he with h1 | h1 | h1 <;> exact absurd h1 (by simp)
    · rw [traceUpTo_names] at hmem
      exact absurd hmem (by decide)
  · have h0 := heq env.v2 env.v3 env.fallbackBalanceOf
    rw [hself] at h0
    rw [h0] at h
    simp at h
  · have h0 := heq env.v2 env.v3 env.fallbackBalanceOf
    rw [hself] at h0
    rw [h0] at h
    injection h with hpair
    injection hpair with hv hrest
    injection hrest with hcm heffs
    subst hv
    subst heffs
    refine ⟨fun _ => hgate, fun _ _ => ?_, fun hgf => ?_, hzero⟩
    · obtain ⟨x, hx⟩ := List.exists_mem_of_ne_nil _ hwne
      have hx1 : x = ("walletBalance", x.2) := Prod.ext (hwtags x hx) rfl
      have hmem : x ∈ preE ++ wE := List.mem_append_right _ hx
      rw [hx1] at hmem
      exact ⟨x.2, hmem⟩
    · rw [hgate] at hgf
      cases hgf
  · have h0 := heq env.v2 env.v3 env.fallbackBalanceOf
    rw [hself] at h0
    rw [h0] at h
    injection h with hpair
    injection hpair with hv hrest
    injection hrest with hcm heffs
    subst hv
    subst heffs
    refine ⟨fun ⟨e, he⟩ => ?_, fun hg _ => ?_, fun _ => by simp, hzero⟩
    · rcases List.mem_append.mp he with h1 | h1
      · rcases List.mem_append.mp h1 with h2 | h2
        · rcases htags _ h2 with h3 | h3 | h3 <;> exact absurd h3 (by simp)
        · cases hgg : walletGate p
          · rw [hwgf hgg] at h2
            cases h2
          · rfl
      · exact absurd (hptags _ h1) (by simp)
    · obtain ⟨x, hx⟩ := List.exists_mem_of_ne_nil _ (hwgt hg)
      have hx1 : x = ("walletBalance", x.2) := Prod.ext (hwtags x hx) rfl
      have hmem : x ∈ preE ++ wE ++ postE :=
        List.mem_append_left _ (List.mem_append_right _ hx)
      rw [hx1] at hmem
      exact ⟨x.2, hmem⟩
  · obtain ⟨d, postE, hptags, h0⟩ := heq env.v2 env.v3 env.fallbackBalanceOf
    rw [hself] at h0
    rw [h0] at h
    injection h with hpair
    injection hpair with hv hrest
    injection hrest with hcm heffs
    subst hv
    subst heffs
    refine ⟨fun ⟨e, he⟩ => ?_, fun hg _ => ?_, fun _ => by simp, hzero⟩
    · rcases List.mem_append.mp he with h1 | h1
      · rcases List.mem_append.mp h1 with h2 | h2
        · rcases htags _ h2 with h3 | h3 | h3 <;> exact absurd h3 (by simp)
        · cases hgg : walletGate p
          · rw [hwgf hgg] at h2
            cases h2
          · rfl
      · rcases hptags _ h1 with h3 | h3 | h3 <;> exact absurd h3 (by simp)
    · obtain ⟨x, hx⟩ := List.exists_mem_of_ne_nil _ (hwgt hg)
      have hx1 : x = ("walletBalance", x.2) := Prod.ext (hwtags x hx) rfl
      have hmem : x ∈ preE ++ wE ++ postE :=
        List.mem_append_left _ (List.mem_append_right _ hx)
      rw [hx1] at hmem
      exact ⟨x.2, hmem⟩

/-- C10 witness: supplying a `neededBalance` with a truthy token makes
the pipeline actually query the wallet balance: the failing sample run
(balance 100 against requirement 200) issues a wallet-tagged balance
query. -/
theorem runProtections_walletGate_spec_witness :
    ∃ e, (("walletBalance", e) : String × Eff) ∈
      ([("mev", Eff.fsRead), ("gas", Eff.feeData), ("gas", Eff.estimateGas),
        ("walletBalance", Eff.balanceOf "0xT" "")] : List (String × Eff)) := by
  have h := (runProtections_walletGate_spec {} sampleEnv (fun _ => 0)
    { sampleParams with neededBalance := some ⟨some "0xT", .big 200⟩ }
    { ok := false, reason := some "insufficientBalance",
      details := .wallet { ok := false, balance := 100 },
      trace := [⟨"cooldown", 0⟩, ⟨"mev", 0⟩, ⟨"slippage", 0⟩, ⟨"profit", 0⟩, ⟨"gas", 0⟩,
        ⟨"walletBalance", 0⟩] }
    (fun k => if k = "r" then 1000000 else 0)
    [("mev", .fsRead), ("gas", .feeData), ("gas", .estimateGas),
      ("walletBalance", .balanceOf "0xT" "")] rfl).2.1
  exact h rfl (by decide)

end Protection
